import Mathlib

/-!
# eleveldb: `basho::utils::Buffer<SIZE>` and `basho::bigset::BigsetAccumulator`

A shallow embedding of `c_src/util/buffer.h` and `c_src/BigsetAccumulator.h`.

Memory model.  A `char*` is modelled by the bytes found at the addresses
`p + 0, p + 1, ...`, that is by a function `Nat → Byte`; the number of bytes
that may be accessed is carried separately, exactly as the C++ code carries
`m_BuffSize` / `SizeInBytes` next to the pointer.  `size_t` values are only
compared and copied by the code, never added, so they are plain `Nat`.
Every `new char[n]` takes its outcome as an argument: `some blk` for a block
whose (indeterminate) initial bytes are `blk`, `none` when the new-expression
cannot allocate.  It is a plain new-expression, so it then throws
`std::bad_alloc`; it never yields a null pointer, and the branches of the code
that test the result against `NULL` are never taken on a failed allocation.
-/

namespace basho

/-- One `char`, read as `unsigned char` (what `memcmp` compares). -/
abbrev Byte := Fin 256

/-- The bytes reachable from a `char*`: byte `i` is the one at address `p + i`. -/
abbrev Mem := Nat → Byte

/-- Pointer arithmetic `p + 1`. -/
def Mem.next (p : Mem) : Mem := fun i => p (i + 1)

/-- The byte string of length `n` that starts at `p`. -/
def readBytes (p : Mem) : Nat → List Byte
  | 0 => []
  | n + 1 => p 0 :: readBytes p.next n

/-- A pointer to (a copy of) the byte string `d`; bytes past the end read as `0`. -/
def ptrTo (d : List Byte) : Mem := fun i => d.getD i 0

/-- `::memcpy(dst, src, n)`: the contents of `dst` afterwards. -/
def memcpy (dst src : Mem) (n : Nat) : Mem := fun i => if i < n then src i else dst i

/-- `::memcmp(s1, s2, n)`: the difference of the first pair of bytes that differ
(as `unsigned char`), `0` when the first `n` bytes agree.  The C standard only
fixes the sign of the result, and the sign is all that `Compare` looks at. -/
def memcmp (s1 s2 : Mem) : Nat → Int
  | 0 => 0
  | n + 1 =>
    if s1 0 = s2 0 then memcmp s1.next s2.next n
    else ((s1 0).val : Int) - ((s2 0).val : Int)

/-- Model of `leveldb::Slice`: a data pointer and a size. -/
structure Slice where
  data_ : Mem
  size_ : Nat

namespace utils

/-- What `m_pBuff` points at: the built-in array `m_Buffer`, or a block obtained
from `new char[n]` (carried with its current contents). -/
inductive BuffPtr where
  | builtin : BuffPtr
  | heap : Mem → BuffPtr

/-- The data members of `Buffer<SIZE>`. -/
structure Buffer (SIZE : Nat) where
  m_Buffer : Mem
  m_pBuff : BuffPtr
  m_BuffSize : Nat
  m_BytesUsed : Nat

/-- The argument of `operator=`: a reference to the object itself
(`this == &That`) or to another object. -/
inductive AssignArg (SIZE : Nat) where
  | self : AssignArg SIZE
  | other : Buffer SIZE → AssignArg SIZE

/-- The exception type `std::bad_alloc`, thrown by a `new char[n]` that cannot
allocate. -/
structure bad_alloc where
  deriving DecidableEq

/-- The exception type `std::logic_error`. -/
structure logic_error where
  what : String
  deriving DecidableEq

namespace Buffer

variable {SIZE : Nat}

/-- `GetCharBuffer()`: returns `m_pBuff`, i.e. the bytes it points at. -/
def GetCharBuffer (b : Buffer SIZE) : Mem :=
  match b.m_pBuff with
  | .builtin => b.m_Buffer
  | .heap blk => blk

/-- A write through `m_pBuff` leaving the pointed-at bytes equal to `m`. -/
def writeBuff (b : Buffer SIZE) (m : Mem) : Buffer SIZE :=
  match b.m_pBuff with
  | .builtin => { b with m_Buffer := m }
  | .heap _ => { b with m_pBuff := .heap m }

/-- `GetBuffSize()`. -/
def GetBuffSize (b : Buffer SIZE) : Nat := b.m_BuffSize

/-- `GetBuiltinBuffSize()`. -/
def GetBuiltinBuffSize (_b : Buffer SIZE) : Nat := SIZE

/-- `GetBytesUsed()`. -/
def GetBytesUsed (b : Buffer SIZE) : Nat := b.m_BytesUsed

/-- `IsEmpty()`. -/
def IsEmpty (b : Buffer SIZE) : Bool := b.m_BytesUsed == 0

/-- `Buffer( size_t BuffSize = SIZE )`: the object constructed, or
`Except.error` when the constructor throws.  `builtin0` is the indeterminate
initial content of `m_Buffer`; `alloc` is the outcome of
`new char[ BuffSize ]`, which is only evaluated when `BuffSize > SIZE`.  The
pointer a new-expression returns is not null, so `m_BuffSize` becomes
`BuffSize`. -/
def ctor (SIZE : Nat) (builtin0 : Mem) (BuffSize : Nat) (alloc : Option Mem) :
    Except bad_alloc (Buffer SIZE) :=
  let b : Buffer SIZE :=
    { m_Buffer := builtin0, m_pBuff := .builtin, m_BuffSize := SIZE, m_BytesUsed := 0 }
  if BuffSize > b.m_BuffSize then
    match alloc with
    | some blk => .ok { b with m_pBuff := .heap blk, m_BuffSize := BuffSize }
    | none => .error ⟨⟩
  else .ok b

/-- `Buffer()`: the constructor with its default argument `BuffSize = SIZE`.
`BuffSize > m_BuffSize` is false, no allocation takes place and the object is
the one the member initialisers give. -/
def ctorDefault (SIZE : Nat) (builtin0 : Mem) : Buffer SIZE :=
  { m_Buffer := builtin0, m_pBuff := .builtin, m_BuffSize := SIZE, m_BytesUsed := 0 }

/-- `ResetBuffer()`: frees a heap block and goes back to the built-in buffer. -/
def ResetBuffer (b : Buffer SIZE) : Buffer SIZE :=
  { b with m_pBuff := .builtin, m_BuffSize := SIZE, m_BytesUsed := 0 }

/-- `EnsureSize( NewSize, pRealloc )`.  The first component of the result is
the value returned, or `Except.error` when the call throws; the second is the
object afterwards.  `pRealloc = none` is the null pointer, `some v` a pointer
to a `bool` currently holding `v`; the third component is that `bool`
afterwards.  `alloc` is the outcome of `new char[ NewSize ]`, only evaluated
when `NewSize > m_BuffSize`: when it cannot allocate, `std::bad_alloc` leaves
the function before anything has been written.  A block that was allocated is
not null, so the branch `success = false` is never taken. -/
def EnsureSize (b : Buffer SIZE) (NewSize : Nat) (pRealloc : Option Bool)
    (alloc : Option Mem) : Except bad_alloc Bool × Buffer SIZE × Option Bool :=
  if NewSize > b.m_BuffSize then
    -- we need to allocate a larger buffer
    match alloc with
    | none => (.error ⟨⟩, b, pRealloc)
    | some blk =>
      -- preserve the old buffer's contents
      let pNewBuff := memcpy blk b.GetCharBuffer b.m_BuffSize
      -- clean up any previously-allocated resources
      let b1 := b.ResetBuffer
      let b2 : Buffer SIZE := { b1 with m_pBuff := .heap pNewBuff, m_BuffSize := NewSize }
      (.ok true, b2, pRealloc.map (fun _ => true))
  else
    (.ok true, b, pRealloc.map (fun _ => false))

/-- `Buffer( const Buffer& That )`: the object constructed, or `Except.error`
when the constructor throws.  `builtin0` is the indeterminate initial content
of `m_Buffer`; `alloc` is the outcome of `new char[ buffSize ]`, only evaluated
when `That.m_BuffSize > SIZE`. -/
def copyCtor (SIZE : Nat) (builtin0 : Mem) (That : Buffer SIZE) (alloc : Option Mem) :
    Except bad_alloc (Buffer SIZE) :=
  let b : Buffer SIZE :=
    { m_Buffer := builtin0, m_pBuff := .builtin, m_BuffSize := SIZE, m_BytesUsed := 0 }
  -- ensure we have a large enough buffer
  let buffSize := That.m_BuffSize
  let allocated : Except bad_alloc (Buffer SIZE) :=
    if buffSize > b.m_BuffSize then
      match alloc with
      | some blk => .ok { b with m_pBuff := .heap blk, m_BuffSize := buffSize }
      | none => .error ⟨⟩
    else .ok b
  match allocated with
  | .error e => .error e
  | .ok b1 =>
    -- if buffer allocation was successful, copy the data
    if b1.m_BuffSize ≥ buffSize then
      let b2 := b1.writeBuff (memcpy b1.GetCharBuffer That.GetCharBuffer buffSize)
      .ok { b2 with m_BytesUsed := That.m_BytesUsed }
    else .ok b1

/-- `SetBytesUsed( BytesUsed )`: the first component is `Except.error` when the
call throws, the second is the object afterwards. -/
def SetBytesUsed (b : Buffer SIZE) (BytesUsed : Nat) : Except logic_error Unit × Buffer SIZE :=
  if BytesUsed ≤ b.m_BuffSize then
    (.ok (), { b with m_BytesUsed := BytesUsed })
  else
    (.error ⟨"BytesUsed value is too large"⟩, b)

/-- `Assign( const char* pData, size_t SizeInBytes )`: the value returned, or
`Except.error` when the exception of `EnsureSize` leaves the call, and the
object afterwards. -/
def Assign (b : Buffer SIZE) (pData : Mem) (SizeInBytes : Nat)
    (alloc : Option Mem) : Except bad_alloc Bool × Buffer SIZE :=
  match EnsureSize b SizeInBytes none alloc with
  | (.error e, b1, _) => (.error e, b1)
  | (.ok false, b1, _) => (.ok false, b1)
  | (.ok true, b1, _) =>
    let b2 := b1.writeBuff (memcpy b1.GetCharBuffer pData SizeInBytes)
    (.ok true, { b2 with m_BytesUsed := SizeInBytes })

/-- `operator=( const Buffer& That )`: whether the call returns (`*this`) or
the exception of `EnsureSize` leaves it, and the object afterwards.
`That = .self` is the case `this == &That`.  `alloc` is the outcome of the
`new` inside `EnsureSize`.  `That` is a reference to const and is not
written. -/
def operator_assign (b : Buffer SIZE) (That : AssignArg SIZE) (alloc : Option Mem) :
    Except bad_alloc Unit × Buffer SIZE :=
  match That with
  | .self => (.ok (), b)
  | .other That =>
    match EnsureSize b That.m_BuffSize none alloc with
    | (.error e, b1, _) => (.error e, b1)
    | (.ok true, b1, _) =>
      let b2 := b1.writeBuff (memcpy b1.GetCharBuffer That.GetCharBuffer That.m_BuffSize)
      (.ok (), { b2 with m_BytesUsed := That.m_BytesUsed })
    | (.ok false, b1, _) =>
      -- throw an exception?
      (.ok (), b1)

/-- `Assign( const Slice& Data )`. -/
def AssignSlice (b : Buffer SIZE) (Data : Slice) (alloc : Option Mem) :
    Except bad_alloc Bool × Buffer SIZE :=
  Assign b Data.data_ Data.size_ alloc

/-- `Compare( pData, SizeInBytes, CompareBytesUsed )`. -/
def Compare (b : Buffer SIZE) (pData : Mem) (SizeInBytes : Nat) (CompareBytesUsed : Bool) : Int :=
  -- how many bytes we compare from this object
  let thisBytesToCompare := if CompareBytesUsed then b.m_BytesUsed else b.m_BuffSize
  let bytesToCompare := if SizeInBytes < thisBytesToCompare then SizeInBytes else thisBytesToCompare
  let retVal : Int := if bytesToCompare > 0 then memcmp b.GetCharBuffer pData bytesToCompare else 0
  if 0 = retVal then
    if thisBytesToCompare > SizeInBytes then 1
    else if thisBytesToCompare < SizeInBytes then -1
    else retVal
  else if retVal < 0 then -1
  else 1

/-- `Compare( pData, SizeInBytes )`. -/
def Compare2 (b : Buffer SIZE) (pData : Mem) (SizeInBytes : Nat) : Int :=
  let compareBytesUsed := decide (b.m_BytesUsed > 0)
  Compare b pData SizeInBytes compareBytesUsed

/-- `Compare( const Slice& Data )`. -/
def CompareSlice (b : Buffer SIZE) (Data : Slice) : Int :=
  Compare2 b Data.data_ Data.size_

/-- `operator==( const Slice& Data )`. -/
def operator_eq (b : Buffer SIZE) (Data : Slice) : Bool := decide (0 = CompareSlice b Data)

/-- `operator!=( const Slice& Data )`. -/
def operator_ne (b : Buffer SIZE) (Data : Slice) : Bool := decide (0 ≠ CompareSlice b Data)

/-- The states of a `Buffer<SIZE>` object that a program can produce when every
allocation succeeds: the result of a constructor, followed by any sequence of
`Assign`, `EnsureSize`, `SetBytesUsed` (throwing or not), `ResetBuffer` and
`operator=` (from itself or from another such object). -/
inductive Reachable : Buffer SIZE → Prop where
  | ctor (builtin0 : Mem) (BuffSize : Nat) (blk : Mem) (b : Buffer SIZE) :
      Buffer.ctor SIZE builtin0 BuffSize (some blk) = .ok b → Reachable b
  | copyCtor (builtin0 : Mem) (That : Buffer SIZE) (blk : Mem) (b : Buffer SIZE) :
      Reachable That → Buffer.copyCtor SIZE builtin0 That (some blk) = .ok b → Reachable b
  | Assign (b : Buffer SIZE) (pData : Mem) (n : Nat) (blk : Mem) :
      Reachable b → Reachable (b.Assign pData n (some blk)).2
  | EnsureSize (b : Buffer SIZE) (n : Nat) (pRealloc : Option Bool) (blk : Mem) :
      Reachable b → Reachable (b.EnsureSize n pRealloc (some blk)).2.1
  | SetBytesUsed (b : Buffer SIZE) (v : Nat) :
      Reachable b → Reachable (b.SetBytesUsed v).2
  | ResetBuffer (b : Buffer SIZE) :
      Reachable b → Reachable b.ResetBuffer
  | assignSelf (b : Buffer SIZE) (blk : Mem) :
      Reachable b → Reachable (b.operator_assign .self (some blk)).2
  | assignOther (b That : Buffer SIZE) (blk : Mem) :
      Reachable b → Reachable That → Reachable (b.operator_assign (.other That) (some blk)).2

end Buffer

end utils

namespace bigset

/-- The data members of `BigsetAccumulator`.  `Actor`, `BigsetClock` and `Dots`
are declared in `BigsetClock.h`; the accumulator code embedded here only stores
them, so they are type parameters.  `Buffer` is `utils::Buffer<32>`. -/
structure BigsetAccumulator (Actor BigsetClock Dots : Type) where
  m_ThisActor : Actor
  m_CurrentSetName : utils.Buffer 32
  m_CurrentElement : utils.Buffer 32
  m_CurrentContext : BigsetClock
  m_CurrentDots : Dots
  m_ReadyKey : utils.Buffer 32
  m_ReadyValue : utils.Buffer 32
  m_RecordReady : Bool

namespace BigsetAccumulator

variable {Actor BigsetClock Dots : Type}

/-- `BigsetAccumulator( const Actor& ThisActor )`: every other member is
default-constructed; `clock0` and `dots0` are the default-constructed
`BigsetClock` and `Dots`, `g1 .. g4` the indeterminate initial contents of the
four built-in buffers. -/
def ctor (ThisActor : Actor) (clock0 : BigsetClock) (dots0 : Dots) (g1 g2 g3 g4 : Mem) :
    BigsetAccumulator Actor BigsetClock Dots :=
  { m_ThisActor := ThisActor
    m_CurrentSetName := utils.Buffer.ctorDefault 32 g1
    m_CurrentElement := utils.Buffer.ctorDefault 32 g2
    m_CurrentContext := clock0
    m_CurrentDots := dots0
    m_ReadyKey := utils.Buffer.ctorDefault 32 g3
    m_ReadyValue := utils.Buffer.ctorDefault 32 g4
    m_RecordReady := false }

/-- `RecordReady()`. -/
def RecordReady (a : BigsetAccumulator Actor BigsetClock Dots) : Bool := a.m_RecordReady

/-- `GetCurrentElement( Slice& key, Slice& value )`: the accumulator and the two
caller slices afterwards. -/
def GetCurrentElement (a : BigsetAccumulator Actor BigsetClock Dots) (key value : Slice) :
    BigsetAccumulator Actor BigsetClock Dots × Slice × Slice :=
  if a.m_RecordReady then
    let readyKey : Slice := ⟨a.m_ReadyKey.GetCharBuffer, a.m_ReadyKey.GetBuffSize⟩
    let readyValue : Slice := ⟨a.m_ReadyValue.GetCharBuffer, a.m_ReadyValue.GetBuffSize⟩
    -- prepare for the next record
    ({ a with m_RecordReady := false }, readyKey, readyValue)
  else
    (a, key, value)

/-- An accumulator holding a ready record: key `k` (one byte, 107) and value
`v` (one byte, 118) have been assigned into the two staging buffers, whose
built-in arrays were filled with `0xAA` before, and the ready flag is set. -/
def readyExample : BigsetAccumulator Unit Unit Unit :=
  { m_ThisActor := ()
    m_CurrentSetName := utils.Buffer.ctorDefault 32 (fun _ => 0)
    m_CurrentElement := utils.Buffer.ctorDefault 32 (fun _ => 0)
    m_CurrentContext := ()
    m_CurrentDots := ()
    m_ReadyKey := ((utils.Buffer.ctorDefault 32 (fun _ => 170)).Assign (ptrTo [107]) 1 none).2
    m_ReadyValue := ((utils.Buffer.ctorDefault 32 (fun _ => 170)).Assign (ptrTo [118]) 1 none).2
    m_RecordReady := true }

end BigsetAccumulator

/-! ### The accumulation algorithm

`BigsetAccumulator.h` only declares `AddRecord` and `FinalizeElement`; their
bodies, and the header `BigsetClock.h` with `Actor`, `BigsetClock` and `Dots`,
are not part of the sources embedded above.  The definitions of this section
follow the specification of the accumulator instead. -/

section Model

variable {Actor : Type}

/-- Modelled from the spec: the Dot of `BigsetClock.h` (missing), "an (Actor,
Counter) pair identifying one causal event". -/
structure Dot (Actor : Type) where
  actor : Actor
  counter : Nat
  deriving DecidableEq

/-- Modelled from the spec: the Causal Context (`BigsetClock` of the missing
`BigsetClock.h`), "a mapping from Actor to the highest Counter it has
observed"; `none` for an actor that is absent. -/
abbrev CausalContext (Actor : Type) := Actor → Option Nat

/-- Modelled from the spec: the cleared Causal Context (`BigsetClock.h` is
missing), in which every actor is absent. -/
def CausalContext.empty : CausalContext Actor := fun _ => none

/-- Modelled from the spec: `merge` of the Causal Context (`BigsetClock.h` is
missing), "for every actor present in either, the maximum counter". -/
def CausalContext.merge (c1 c2 : CausalContext Actor) : CausalContext Actor := fun a =>
  match c1 a, c2 a with
  | some m, some n => some (max m n)
  | some m, none => some m
  | none, some n => some n
  | none, none => none

/-- Modelled from the spec: `covers` of the Causal Context (`BigsetClock.h` is
missing), "whether the dot's counter is <= this context's recorded counter for
that actor (false, including when the actor is absent)". -/
def CausalContext.covers (c : CausalContext Actor) (d : Dot Actor) : Bool :=
  match c d.actor with
  | some n => decide (d.counter ≤ n)
  | none => false

/-- Modelled from the spec: the Dot Set (`Dots` of the missing `BigsetClock.h`),
"the set of individual causal events currently asserting presence of the
element being accumulated". -/
abbrev DotSet (Actor : Type) := List (Dot Actor)

/-- Modelled from the spec: `add` of the Dot Set (`BigsetClock.h` is missing),
"inserts a dot (duplicate insert is a no-op)". -/
def DotSet.add [DecidableEq Actor] (s : DotSet Actor) (d : Dot Actor) : DotSet Actor :=
  if d ∈ s then s else s ++ [d]

/-- Modelled from the spec: `anySurvives` of the Dot Set (`BigsetClock.h` is
missing), "true iff at least one contained dot is not covered by the given
context". -/
def DotSet.anySurvives (s : DotSet Actor) (c : CausalContext Actor) : Bool :=
  s.any (fun d => !c.covers d)

/-- Modelled from the spec: the causal payload of one record as `AddRecord`
(body missing) decodes it: a clock fragment, a dot, both or neither. -/
abbrev Payload (Actor : Type) := Option (CausalContext Actor) × Option (Dot Actor)

/-- Modelled from the spec: one raw record as `AddRecord` (body missing) decodes
it: the embedded SetName and Element, and the causal payload. -/
structure Record (Actor : Type) where
  setName : List Byte
  element : List Byte
  payload : Payload Actor

/-- Modelled from the spec: the Ready Record that `FinalizeElement` (body
missing) stages, "key (SetName, Element, consolidated metadata) and value
(consolidated causal summary)", before encoding. -/
structure ReadyRecord (Actor : Type) where
  setName : List Byte
  element : List Byte
  context : CausalContext Actor
  dots : DotSet Actor

/-- Modelled from the spec: the (SetName, Element) pair a Ready Record (staged
by the missing `FinalizeElement`) is for. -/
def ReadyRecord.key (r : ReadyRecord Actor) : List Byte × List Byte := (r.setName, r.element)

/-- Modelled from the spec: the state that `AddRecord` and `FinalizeElement`
(bodies missing) work on: the open group if any, its Causal Context and Dot
Set, and the Ready Record pending collection if any. -/
structure Accumulation (Actor : Type) where
  current : Option (List Byte × List Byte)
  context : CausalContext Actor
  dots : DotSet Actor
  ready : Option (ReadyRecord Actor)

namespace Accumulation

/-- Modelled from the spec: the accumulator before `AddRecord` (body missing)
has seen a record: state `Idle`, no group open, nothing ready. -/
def init : Accumulation Actor :=
  { current := none, context := CausalContext.empty, dots := [], ready := none }

/-- Modelled from the spec: `recordReady()` on the state of the missing
`AddRecord` / `FinalizeElement`, "true iff a Ready Record is pending
collection". -/
def RecordReady (s : Accumulation Actor) : Bool := s.ready.isSome

/-- Modelled from the spec: `FinalizeElement` (declared in
`BigsetAccumulator.h`, body missing): "evaluate
`DotSet.anySurvives(CausalContext)`. If true, construct the Ready Record ... and
transition to `Ready`. If false ... produce no output"; the group is closed
either way, and nothing happens when no group is open. -/
def FinalizeElement (s : Accumulation Actor) : Accumulation Actor :=
  match s.current with
  | none => s
  | some (setName, element) =>
    if s.dots.anySurvives s.context then
      { s with current := none, ready := some ⟨setName, element, s.context, s.dots⟩ }
    else
      { s with current := none }

/-- Modelled from the spec: the fold step of `AddRecord` (body missing): "if it
encodes a clock/version-vector fragment, merge it into the Causal Context; if
it encodes a dot, add it to the Dot Set. A record may contribute to both." -/
def fold [DecidableEq Actor] (s : Accumulation Actor) (p : Payload Actor) : Accumulation Actor :=
  let s1 : Accumulation Actor :=
    match p.1 with
    | some c => { s with context := s.context.merge c }
    | none => s
  match p.2 with
  | some d => { s1 with dots := s1.dots.add d }
  | none => s1

/-- Modelled from the spec: `AddRecord` (declared in `BigsetAccumulator.h`, body
missing): "If this is the first record ever seen, or the decoded (SetName,
Element) differs from the currently tracked one, finalize the currently open
group first, then reset the Causal Context and Dot Set and copy the new
SetName/Element into the staging buffers ... Then fold the record's causal
payload". -/
def AddRecord [DecidableEq Actor] (s : Accumulation Actor) (r : Record Actor) :
    Accumulation Actor :=
  let s1 : Accumulation Actor :=
    if s.current = some (r.setName, r.element) then s
    else
      { s.FinalizeElement with
        current := some (r.setName, r.element)
        context := CausalContext.empty
        dots := [] }
  s1.fold r.payload

/-- Modelled from the spec: `collect()` on the state of the missing `AddRecord` /
`FinalizeElement`: returns the Ready Record and "clears the ready flag"; "when
no record is ready yields no observable effect". -/
def collect (s : Accumulation Actor) : Option (ReadyRecord Actor) × Accumulation Actor :=
  match s.ready with
  | some r => (some r, { s with ready := none })
  | none => (none, s)

/-- Modelled from the spec: one poll by the driver (not under src/), which asks
`recordReady()` and collects the Ready Record "if present". -/
def poll (s : Accumulation Actor) : Option (ReadyRecord Actor) × Accumulation Actor :=
  if s.RecordReady then s.collect else (none, s)

/-- Modelled from the spec: `flush()`, the end-of-stream signal (body missing),
"finalizes any open group exactly as a boundary would". -/
def flush (s : Accumulation Actor) : Accumulation Actor := s.FinalizeElement

/-- Modelled from the spec: the driver (not under src/), which "calls the
Accumulator once per record" and "polls the Accumulator for a ready output
record after each call and, if present, forwards it downstream".  The result
is the list of forwarded records and the accumulator afterwards. -/
def feed [DecidableEq Actor] (s : Accumulation Actor) :
    List (Record Actor) → List (ReadyRecord Actor) × Accumulation Actor
  | [] => ([], s)
  | r :: rs =>
    let polled := (s.AddRecord r).poll
    let later := feed polled.2 rs
    (polled.1.toList ++ later.1, later.2)

/-- Modelled from the spec: a whole scan by the driver (not under src/) starting
in state `s`: every record is fed, then `flush()` is called and the accumulator
is polled a last time. -/
def scanFrom [DecidableEq Actor] (s : Accumulation Actor) (stream : List (Record Actor)) :
    List (ReadyRecord Actor) :=
  (feed s stream).1 ++ (feed s stream).2.flush.poll.1.toList

/-- Modelled from the spec: a whole scan by the driver (not under src/) with a
new accumulator. -/
def scan [DecidableEq Actor] (stream : List (Record Actor)) : List (ReadyRecord Actor) :=
  scanFrom init stream

end Accumulation

/-- Modelled from the spec: an Accumulation Group, "the implicit run of
consecutive records sharing the same (SetName, Element) pair", given by the
pair and the payloads of its records (at least one). -/
structure Group (Actor : Type) where
  setName : List Byte
  element : List Byte
  first : Payload Actor
  rest : List (Payload Actor)

namespace Group

/-- Modelled from the spec: the (SetName, Element) pair of a group. -/
def key (g : Group Actor) : List Byte × List Byte := (g.setName, g.element)

/-- Modelled from the spec: the records of a group, in stream order. -/
def records (g : Group Actor) : List (Record Actor) :=
  (g.first :: g.rest).map (fun p => ⟨g.setName, g.element, p⟩)

/-- Modelled from the spec: "the accumulated context built from all records
belonging to that element": the merge of all clock fragments of the group. -/
def mergedContext (g : Group Actor) : CausalContext Actor :=
  (g.first :: g.rest).foldl
    (fun c p => match p.1 with
      | some f => c.merge f
      | none => c)
    CausalContext.empty

/-- Modelled from the spec: all dots carried by the records of the group. -/
def allDots (g : Group Actor) : List (Dot Actor) :=
  (g.first :: g.rest).filterMap (fun p => p.2)

/-- Modelled from the spec: the state of the accumulator (bodies of `AddRecord`
and `FinalizeElement` missing) once the group has been opened on a reset
Causal Context and Dot Set and all its payloads have been folded. -/
def accumulated [DecidableEq Actor] (g : Group Actor) : Accumulation Actor :=
  (g.first :: g.rest).foldl Accumulation.fold
    { current := some g.key, context := CausalContext.empty, dots := [], ready := none }

/-- Modelled from the spec: the element survives when "at least one dot in the
set is not covered by the accumulated context built from all records belonging
to that element". -/
def survives (g : Group Actor) : Bool :=
  g.allDots.any (fun d => !g.mergedContext.covers d)

end Group

/-- Modelled from the spec: Scenario A, records for element `x` of set `s` that
"carry dots {(a,1),(b,1)} and a context covering {a:1} only"; actor `a` is `0`
and actor `b` is `1`. -/
def scenarioA : Group Nat :=
  { setName := [115]
    element := [120]
    first := (some (fun a => if a = 0 then some 1 else none), some ⟨0, 1⟩)
    rest := [(none, some ⟨1, 1⟩)] }

/-- Modelled from the spec: Scenario B, records for element `y` of set `s` that
"carry dots {(a,1)} and a context covering {a:2}". -/
def scenarioB : Group Nat :=
  { setName := [115]
    element := [121]
    first := (none, some ⟨0, 1⟩)
    rest := [(some (fun a => if a = 0 then some 2 else none), none)] }

end Model

end bigset

/-! ## Auxiliary facts about the memory model -/

theorem readBytes_length (p : Mem) (n : Nat) : (readBytes p n).length = n := by
  induction n generalizing p with
  | zero => rfl
  | succ n ih => simp [readBytes, ih]

theorem readBytes_eq_iff (p q : Mem) (n : Nat) :
    readBytes p n = readBytes q n ↔ ∀ i, i < n → p i = q i := by
  induction n generalizing p q with
  | zero => simp [readBytes]
  | succ n ih =>
    simp only [readBytes, List.cons.injEq, ih, Mem.next]
    constructor
    · rintro ⟨h0, hs⟩ i hi
      cases i with
      | zero => exact h0
      | succ j => exact hs j (by omega)
    · intro h
      exact ⟨h 0 (by omega), fun i hi => h (i + 1) (by omega)⟩

theorem readBytes_ptrTo (d : List Byte) : readBytes (ptrTo d) d.length = d := by
  induction d with
  | nil => rfl
  | cons x xs ih =>
    have hnext : (ptrTo (x :: xs)).next = ptrTo xs := by
      funext i
      simp [Mem.next, ptrTo]
    simp [readBytes, hnext, ih, ptrTo]

theorem readBytes_succ (p : Mem) (n : Nat) :
    readBytes p (n + 1) = p 0 :: readBytes p.next n := rfl

theorem memcmp_eq_zero_iff (s1 s2 : Mem) (n : Nat) :
    memcmp s1 s2 n = 0 ↔ readBytes s1 n = readBytes s2 n := by
  induction n generalizing s1 s2 with
  | zero => simp [memcmp, readBytes]
  | succ n ih =>
    by_cases h : s1 0 = s2 0
    · simp [memcmp, readBytes, h, ih]
    · have hv : ((s1 0).val : Int) - ((s2 0).val : Int) ≠ 0 := by
        intro h0
        apply h
        apply Fin.ext
        omega
      simp [memcmp, readBytes, h, hv]

theorem memcmp_neg_lex (s1 s2 : Mem) (n : Nat) (h : memcmp s1 s2 n < 0) (k1 k2 : Nat) :
    List.Lex (· < ·) (readBytes s1 (n + k1)) (readBytes s2 (n + k2)) := by
  induction n generalizing s1 s2 with
  | zero => simp [memcmp] at h
  | succ n ih =>
    have e1 : n + 1 + k1 = (n + k1) + 1 := by omega
    have e2 : n + 1 + k2 = (n + k2) + 1 := by omega
    rw [e1, e2, readBytes_succ, readBytes_succ]
    by_cases h0 : s1 0 = s2 0
    · simp only [memcmp, h0, if_true] at h
      rw [h0]
      exact List.Lex.cons (ih _ _ h)
    · simp only [memcmp, h0, if_false] at h
      apply List.Lex.rel
      apply Fin.lt_def.2
      omega

theorem memcmp_pos_lex (s1 s2 : Mem) (n : Nat) (h : 0 < memcmp s1 s2 n) (k1 k2 : Nat) :
    List.Lex (· < ·) (readBytes s2 (n + k2)) (readBytes s1 (n + k1)) := by
  induction n generalizing s1 s2 with
  | zero => simp [memcmp] at h
  | succ n ih =>
    have e1 : n + 1 + k1 = (n + k1) + 1 := by omega
    have e2 : n + 1 + k2 = (n + k2) + 1 := by omega
    rw [e1, e2, readBytes_succ, readBytes_succ]
    by_cases h0 : s1 0 = s2 0
    · simp only [memcmp, h0, if_true] at h
      rw [h0]
      exact List.Lex.cons (ih _ _ h)
    · simp only [memcmp, h0, if_false] at h
      apply List.Lex.rel
      apply Fin.lt_def.2
      omega

theorem readBytes_prefix_lex (s1 s2 : Mem) (n k : Nat)
    (h : readBytes s1 n = readBytes s2 n) :
    List.Lex (· < ·) (readBytes s1 n) (readBytes s2 (n + (k + 1))) := by
  induction n generalizing s1 s2 with
  | zero => exact List.Lex.nil
  | succ n ih =>
    have e2 : n + 1 + (k + 1) = (n + (k + 1)) + 1 := by omega
    rw [e2, readBytes_succ, readBytes_succ]
    rw [readBytes_succ, readBytes_succ] at h
    injection h with h0 ht
    rw [h0]
    exact List.Lex.cons (ih _ _ ht)

theorem lex_byte_asymm (p d : List Byte) (h1 : List.Lex (· < ·) p d)
    (h2 : List.Lex (· < ·) d p) : False :=
  (List.Lex.isAsymm (fun a b : Byte => a < b)).asymm p d h1 h2

namespace utils

namespace Buffer

variable {SIZE : Nat}

/-- The constructor called with its default argument allocates nothing and
constructs `ctorDefault`. -/
theorem ctor_default (builtin0 : Mem) (alloc : Option Mem) :
    Buffer.ctor SIZE builtin0 SIZE alloc = Except.ok (ctorDefault SIZE builtin0) := by
  simp [Buffer.ctor, ctorDefault]

theorem GetCharBuffer_writeBuff (b : Buffer SIZE) (m : Mem) :
    (b.writeBuff m).GetCharBuffer = m := by
  unfold writeBuff GetCharBuffer
  cases h : b.m_pBuff <;> simp

theorem m_BuffSize_writeBuff (b : Buffer SIZE) (m : Mem) :
    (b.writeBuff m).m_BuffSize = b.m_BuffSize := by
  unfold writeBuff
  cases h : b.m_pBuff <;> simp

/-- The three outcomes of `EnsureSize`, spelled out. -/
theorem EnsureSize_cases (b : Buffer SIZE) (NewSize : Nat) (pRealloc : Option Bool)
    (alloc : Option Mem) :
    (NewSize ≤ b.m_BuffSize ∧
      b.EnsureSize NewSize pRealloc alloc =
        (Except.ok true, b, pRealloc.map (fun _ => false))) ∨
    (b.m_BuffSize < NewSize ∧ alloc = none ∧
      b.EnsureSize NewSize pRealloc alloc = (Except.error ⟨⟩, b, pRealloc)) ∨
    (b.m_BuffSize < NewSize ∧ ∃ blk, alloc = some blk ∧
      b.EnsureSize NewSize pRealloc alloc =
        (Except.ok true,
         { m_Buffer := b.m_Buffer
           m_pBuff := .heap (memcpy blk b.GetCharBuffer b.m_BuffSize)
           m_BuffSize := NewSize
           m_BytesUsed := 0 },
         pRealloc.map (fun _ => true))) := by
  by_cases h : NewSize > b.m_BuffSize
  · cases alloc with
    | none => exact Or.inr (Or.inl ⟨h, rfl, by simp [EnsureSize, h]⟩)
    | some blk =>
      exact Or.inr (Or.inr ⟨h, blk, rfl, by simp [EnsureSize, h, ResetBuffer]⟩)
  · exact Or.inl ⟨by omega, by simp [EnsureSize, h]⟩

theorem Assign_true_spec (b : Buffer SIZE) (pData : Mem) (n : Nat) (alloc : Option Mem)
    (hok : (b.Assign pData n alloc).1 = Except.ok true) :
    (b.Assign pData n alloc).2.GetBytesUsed = n ∧
    (∀ i, i < n → (b.Assign pData n alloc).2.GetCharBuffer i = pData i) ∧
    readBytes (b.Assign pData n alloc).2.GetCharBuffer n = readBytes pData n := by
  have key : (b.Assign pData n alloc).2.GetBytesUsed = n ∧
      ∀ i, i < n → (b.Assign pData n alloc).2.GetCharBuffer i = pData i := by
    rcases EnsureSize_cases b n none alloc with ⟨_, he⟩ | ⟨_, _, he⟩ | ⟨_, blk, _, he⟩
    · refine ⟨by simp [Assign, he, GetBytesUsed], fun i hi => ?_⟩
      simp only [Assign, he, Option.map_none']
      simp only [GetCharBuffer, writeBuff]
      cases hp : b.m_pBuff <;> simp [hp, memcpy, hi]
    · simp [Assign, he] at hok
    · refine ⟨by simp [Assign, he, GetBytesUsed], fun i hi => ?_⟩
      simp [Assign, he, GetCharBuffer, writeBuff, memcpy, hi]
  exact ⟨key.1, key.2, (readBytes_eq_iff _ _ _).2 key.2⟩

theorem Compare_spec (b : Buffer SIZE) (pData : Mem) (n : Nat) (flag : Bool) :
    (b.Compare pData n flag = -1 ↔
      List.Lex (· < ·)
        (readBytes b.GetCharBuffer (if flag then b.GetBytesUsed else b.GetBuffSize))
        (readBytes pData n)) ∧
    (b.Compare pData n flag = 1 ↔
      List.Lex (· < ·) (readBytes pData n)
        (readBytes b.GetCharBuffer (if flag then b.GetBytesUsed else b.GetBuffSize))) ∧
    (b.Compare pData n flag = 0 ↔
      readBytes b.GetCharBuffer (if flag then b.GetBytesUsed else b.GetBuffSize) =
        readBytes pData n) := by
  simp only [GetBytesUsed, GetBuffSize]
  generalize hL : (if flag = true then b.m_BytesUsed else b.m_BuffSize) = L
  have hC : b.Compare pData n flag =
      (if 0 = (if (if n < L then n else L) > 0
                then memcmp b.GetCharBuffer pData (if n < L then n else L) else 0)
       then (if L > n then 1 else if L < n then -1
              else (if (if n < L then n else L) > 0
                then memcmp b.GetCharBuffer pData (if n < L then n else L) else 0))
       else if (if (if n < L then n else L) > 0
                then memcmp b.GetCharBuffer pData (if n < L then n else L) else 0) < 0
            then -1 else 1) := by
    simp only [Compare, hL]
  generalize b.GetCharBuffer = buf at hC ⊢
  generalize b.Compare pData n flag = c at hC ⊢
  -- the result together with the relation that holds
  have fwd : (c = -1 ∧ List.Lex (· < ·) (readBytes buf L) (readBytes pData n)) ∨
      (c = 1 ∧ List.Lex (· < ·) (readBytes pData n) (readBytes buf L)) ∨
      (c = 0 ∧ readBytes buf L = readBytes pData n) := by
    obtain ⟨m, k1, k2, hm, hL1, hn1, hk⟩ : ∃ m k1 k2, (if n < L then n else L) = m ∧
        L = m + k1 ∧ n = m + k2 ∧ (k1 = 0 ∨ k2 = 0) := by
      by_cases h : n < L
      · exact ⟨n, L - n, 0, by simp [h], by omega, by omega, Or.inr rfl⟩
      · exact ⟨L, 0, n - L, by simp [h], by omega, by omega, Or.inl rfl⟩
    rw [hm] at hC
    have hr : (if m > 0 then memcmp buf pData m else 0) = memcmp buf pData m := by
      cases m with
      | zero => simp [memcmp]
      | succ m => simp
    rw [hr] at hC
    rcases lt_trichotomy (memcmp buf pData m) 0 with hlt | heq | hgt
    · left
      have hne : ¬ (0 = memcmp buf pData m) := by omega
      refine ⟨by rw [hC]; simp [hne, hlt], ?_⟩
      rw [hL1, hn1]
      exact memcmp_neg_lex buf pData m hlt k1 k2
    · have hpre := (memcmp_eq_zero_iff buf pData m).1 heq
      rw [heq] at hC
      simp only [if_true] at hC
      by_cases h1 : L > n
      · right; left
        refine ⟨by rw [hC]; simp [h1], ?_⟩
        have hk2 : k2 = 0 := by omega
        obtain ⟨j, hj⟩ : ∃ j, k1 = j + 1 := ⟨k1 - 1, by omega⟩
        rw [hL1, hn1, hk2, hj]
        exact readBytes_prefix_lex pData buf m j hpre.symm
      · by_cases h2 : L < n
        · left
          refine ⟨by rw [hC]; simp [h1, h2], ?_⟩
          have hk1 : k1 = 0 := by omega
          obtain ⟨j, hj⟩ : ∃ j, k2 = j + 1 := ⟨k2 - 1, by omega⟩
          rw [hL1, hn1, hk1, hj]
          exact readBytes_prefix_lex buf pData m j hpre
        · right; right
          refine ⟨by rw [hC]; simp [h1, h2], ?_⟩
          have hk1 : k1 = 0 := by omega
          have hk2 : k2 = 0 := by omega
          rw [hL1, hn1, hk1, hk2]
          exact hpre
    · right; left
      have hne : ¬ (0 = memcmp buf pData m) := by omega
      have hnl : ¬ (memcmp buf pData m < 0) := by omega
      refine ⟨by rw [hC]; simp [hne, hnl], ?_⟩
      rw [hL1, hn1]
      exact memcmp_pos_lex buf pData m hgt k1 k2
  have irr : ∀ l : List Byte, ¬ List.Lex (· < ·) l l := fun l h => lex_byte_asymm l l h h
  rcases fwd with ⟨hc, hr⟩ | ⟨hc, hr⟩ | ⟨hc, hr⟩
  · refine ⟨⟨fun _ => hr, fun _ => hc⟩, ⟨fun h => ?_, fun h => ?_⟩, ⟨fun h => ?_, fun h => ?_⟩⟩
    · rw [hc] at h; cases h
    · exact (lex_byte_asymm _ _ hr h).elim
    · rw [hc] at h; cases h
    · rw [h] at hr; exact (irr _ hr).elim
  · refine ⟨⟨fun h => ?_, fun h => ?_⟩, ⟨fun _ => hr, fun _ => hc⟩, ⟨fun h => ?_, fun h => ?_⟩⟩
    · rw [hc] at h; cases h
    · exact (lex_byte_asymm _ _ h hr).elim
    · rw [hc] at h; cases h
    · rw [h] at hr; exact (irr _ hr).elim
  · refine ⟨⟨fun h => ?_, fun h => ?_⟩, ⟨fun h => ?_, fun h => ?_⟩, ⟨fun _ => hr, fun _ => hc⟩⟩
    · rw [hc] at h; cases h
    · rw [hr] at h; exact (irr _ h).elim
    · rw [hc] at h; cases h
    · rw [hr] at h; exact (irr _ h).elim

end Buffer

end utils

/-! ## Claims about `Buffer` -/

namespace utils

namespace Buffer

variable {SIZE : Nat}

/-- C1. Assign postcondition: whatever the buffer held before, when
`Assign(pData, n)` returns true, `GetBytesUsed()` is `n` and the first `n` bytes
of the buffer are the `n` bytes at `pData`, byte for byte. -/
theorem Assign_postcondition (b : Buffer SIZE) (pData : Mem) (n : Nat) (alloc : Option Mem)
    (hok : (b.Assign pData n alloc).1 = Except.ok true) :
    (b.Assign pData n alloc).2.GetBytesUsed = n ∧
    (∀ i, i < n → (b.Assign pData n alloc).2.GetCharBuffer i = pData i) ∧
    readBytes (b.Assign pData n alloc).2.GetCharBuffer n = readBytes pData n :=
  Assign_true_spec b pData n alloc hok

/-- Witness for C1: a 4-byte built-in buffer that holds the longer value
`1 2 3` is assigned the single byte `9`. -/
theorem Assign_postcondition_witness :
    ((((ctorDefault 4 (fun _ => 0)).Assign (ptrTo [1, 2, 3]) 3 none).2.Assign
        (ptrTo [9]) 1 none).1 = Except.ok true) ∧
    (((ctorDefault 4 (fun _ => 0)).Assign (ptrTo [1, 2, 3]) 3 none).2.Assign
        (ptrTo [9]) 1 none).2.GetBytesUsed = 1 ∧
    (∀ i, i < 1 → (((ctorDefault 4 (fun _ => 0)).Assign (ptrTo [1, 2, 3]) 3 none).2.Assign
        (ptrTo [9]) 1 none).2.GetCharBuffer i = ptrTo [9] i) ∧
    readBytes (((ctorDefault 4 (fun _ => 0)).Assign (ptrTo [1, 2, 3]) 3 none).2.Assign
        (ptrTo [9]) 1 none).2.GetCharBuffer 1 = readBytes (ptrTo [9]) 1 :=
  ⟨rfl,
   Assign_postcondition ((ctorDefault 4 (fun _ => 0)).Assign (ptrTo [1, 2, 3]) 3 none).2
     (ptrTo [9]) 1 none rfl⟩

/-- C2. Growth preserves data: when `EnsureSize(S2)` with `S2` larger than the
current capacity `S1` returns true, every byte at an index below `S1` is the
byte that was there before the call. -/
theorem EnsureSize_growth_preserves_data (b : Buffer SIZE) (S2 : Nat) (pRealloc : Option Bool)
    (alloc : Option Mem) (hgt : S2 > b.GetBuffSize)
    (hok : (b.EnsureSize S2 pRealloc alloc).1 = Except.ok true) :
    (∀ i, i < b.GetBuffSize →
      (b.EnsureSize S2 pRealloc alloc).2.1.GetCharBuffer i = b.GetCharBuffer i) ∧
    readBytes (b.EnsureSize S2 pRealloc alloc).2.1.GetCharBuffer b.GetBuffSize =
      readBytes b.GetCharBuffer b.GetBuffSize := by
  have key : ∀ i, i < b.GetBuffSize →
      (b.EnsureSize S2 pRealloc alloc).2.1.GetCharBuffer i = b.GetCharBuffer i := by
    intro i hi
    simp only [GetBuffSize] at hgt hi
    rcases EnsureSize_cases b S2 pRealloc alloc with ⟨hle, _⟩ | ⟨_, _, he⟩ | ⟨_, blk, _, he⟩
    · omega
    · simp [he] at hok
    · rw [he]
      simp [GetCharBuffer, memcpy, hi]
  exact ⟨key, (readBytes_eq_iff _ _ _).2 key⟩

/-- Witness for C2: a 2-byte built-in buffer holding `7 8` grows to 5 bytes. -/
theorem EnsureSize_growth_preserves_data_witness :
    (5 > ((ctorDefault 2 (fun _ => 0)).Assign (ptrTo [7, 8]) 2 none).2.GetBuffSize) ∧
    ((((ctorDefault 2 (fun _ => 0)).Assign (ptrTo [7, 8]) 2 none).2.EnsureSize 5 none
        (some (fun _ => 255))).1 = Except.ok true) ∧
    (∀ i, i < ((ctorDefault 2 (fun _ => 0)).Assign (ptrTo [7, 8]) 2 none).2.GetBuffSize →
      (((ctorDefault 2 (fun _ => 0)).Assign (ptrTo [7, 8]) 2 none).2.EnsureSize 5 none
        (some (fun _ => 255))).2.1.GetCharBuffer i =
      ((ctorDefault 2 (fun _ => 0)).Assign (ptrTo [7, 8]) 2 none).2.GetCharBuffer i) ∧
    readBytes (((ctorDefault 2 (fun _ => 0)).Assign (ptrTo [7, 8]) 2 none).2.EnsureSize 5 none
        (some (fun _ => 255))).2.1.GetCharBuffer
        ((ctorDefault 2 (fun _ => 0)).Assign (ptrTo [7, 8]) 2 none).2.GetBuffSize =
      readBytes ((ctorDefault 2 (fun _ => 0)).Assign (ptrTo [7, 8]) 2 none).2.GetCharBuffer
        ((ctorDefault 2 (fun _ => 0)).Assign (ptrTo [7, 8]) 2 none).2.GetBuffSize :=
  ⟨by decide, rfl,
   EnsureSize_growth_preserves_data ((ctorDefault 2 (fun _ => 0)).Assign (ptrTo [7, 8]) 2 none).2
     5 none (some (fun _ => 255)) (by decide) rfl⟩

/-- C3. `Compare` is the byte-wise lexicographic order.  With `L` the number of
bytes used when the flag is set and the capacity otherwise, `p` the first `L`
bytes of the buffer and `d` the `n` bytes at `pData`: the result is `-1`
exactly when `p` sorts before `d`, `1` exactly when `p` sorts after `d`, and
`0` exactly when `p` and `d` are the same byte string (bytes compared as
unsigned values, a proper prefix before its extensions). -/
theorem Compare_lexicographic (b : Buffer SIZE) (pData : Mem) (n : Nat) (flag : Bool) :
    (b.Compare pData n flag = -1 ↔
      List.Lex (· < ·)
        (readBytes b.GetCharBuffer (if flag then b.GetBytesUsed else b.GetBuffSize))
        (readBytes pData n)) ∧
    (b.Compare pData n flag = 1 ↔
      List.Lex (· < ·) (readBytes pData n)
        (readBytes b.GetCharBuffer (if flag then b.GetBytesUsed else b.GetBuffSize))) ∧
    (b.Compare pData n flag = 0 ↔
      readBytes b.GetCharBuffer (if flag then b.GetBytesUsed else b.GetBuffSize) =
        readBytes pData n) :=
  Compare_spec b pData n flag

/-- C5. Capacity grows only when needed and never shrinks: a successful
`EnsureSize(n)` on a buffer of capacity `c` leaves the capacity `max c n`, and
so does the `Assign` of `n` bytes (which then succeeds too); when `n <= c` the
object is left as it was and a non-null `pRealloc` receives false; when `n > c`
a non-null `pRealloc` receives true. -/
theorem EnsureSize_capacity (b : Buffer SIZE) (n : Nat) (pRealloc : Option Bool)
    (alloc : Option Mem) (hok : (b.EnsureSize n pRealloc alloc).1 = Except.ok true) :
    (b.EnsureSize n pRealloc alloc).2.1.GetBuffSize = max b.GetBuffSize n ∧
    (∀ pData, (b.Assign pData n alloc).1 = Except.ok true ∧
      (b.Assign pData n alloc).2.GetBuffSize = max b.GetBuffSize n) ∧
    (n ≤ b.GetBuffSize →
      (b.EnsureSize n pRealloc alloc).2.1 = b ∧
      (b.EnsureSize n pRealloc alloc).2.2 = pRealloc.map (fun _ => false)) ∧
    (n > b.GetBuffSize →
      (b.EnsureSize n pRealloc alloc).2.2 = pRealloc.map (fun _ => true)) := by
  simp only [GetBuffSize]
  rcases EnsureSize_cases b n pRealloc alloc with ⟨hle, he⟩ | ⟨_, _, he⟩ | ⟨hlt, blk, hb, he⟩
  · have hn := EnsureSize_cases b n none alloc
    rcases hn with ⟨_, hn⟩ | ⟨h, _⟩ | ⟨h, _⟩
    · refine ⟨by simp [he, Nat.max_eq_left hle], fun pData => ?_, fun _ => by simp [he],
        fun h => by omega⟩
      simp [Assign, hn, m_BuffSize_writeBuff, Nat.max_eq_left hle]
    · omega
    · omega
  · simp [he] at hok
  · have hn : b.EnsureSize n none alloc = (Except.ok true,
         { m_Buffer := b.m_Buffer
           m_pBuff := .heap (memcpy blk b.GetCharBuffer b.m_BuffSize)
           m_BuffSize := n
           m_BytesUsed := 0 }, none) := by
      simp [EnsureSize, hlt, hb, ResetBuffer]
    refine ⟨by simp [he, Nat.max_eq_right (Nat.le_of_lt hlt)], fun pData => ?_,
      fun h => by omega, fun _ => by simp [he]⟩
    simp [Assign, hn, writeBuff, Nat.max_eq_right (Nat.le_of_lt hlt)]

/-- Witness for C5: a default `Buffer<2>` is asked for 5 bytes and the
allocation succeeds. -/
theorem EnsureSize_capacity_witness :
    (((ctorDefault 2 (fun _ => 0)).EnsureSize 5 (some false) (some (fun _ => 0))).1 =
      Except.ok true) ∧
    ((ctorDefault 2 (fun _ => 0)).EnsureSize 5 (some false) (some (fun _ => 0))).2.1.GetBuffSize
      = max (ctorDefault 2 (fun _ => 0)).GetBuffSize 5 :=
  ⟨rfl,
   (EnsureSize_capacity (ctorDefault 2 (fun _ => 0)) 5 (some false) (some (fun _ => 0))
     rfl).1⟩

/-- What `Assign` does when the larger block cannot be allocated: it never
returns false; the `std::bad_alloc` of the new-expression in `EnsureSize`
leaves the call, exactly when `n` exceeds the capacity and the allocation
fails, and the object is then what it was before. -/
theorem Assign_outcome (b : Buffer SIZE) (pData : Mem) (n : Nat) (alloc : Option Mem) :
    (b.Assign pData n alloc).1 ≠ Except.ok false ∧
    (b.EnsureSize n none alloc).1 ≠ Except.ok false ∧
    ((b.Assign pData n alloc).1 = Except.error ⟨⟩ ↔ (n > b.GetBuffSize ∧ alloc = none)) ∧
    ((b.Assign pData n alloc).1 = Except.error ⟨⟩ → (b.Assign pData n alloc).2 = b) := by
  simp only [GetBuffSize]
  rcases EnsureSize_cases b n none alloc with ⟨hle, he⟩ | ⟨hlt, hb, he⟩ | ⟨hlt, blk, hb, he⟩
  · have h1 : (b.Assign pData n alloc).1 = Except.ok true := by simp [Assign, he]
    refine ⟨by simp [h1], by simp [he], ⟨fun h => ?_, fun h => by omega⟩, fun h => ?_⟩
    · rw [h1] at h; cases h
    · rw [h1] at h; cases h
  · have h1 : b.Assign pData n alloc = (Except.error ⟨⟩, b) := by simp [Assign, he]
    exact ⟨by simp [h1], by simp [he], by rw [h1]; simp [hlt, hb], by simp [h1]⟩
  · have h1 : (b.Assign pData n alloc).1 = Except.ok true := by simp [Assign, he]
    refine ⟨by simp [h1], by simp [he], ⟨fun h => ?_, fun h => by simp [hb] at h⟩, fun h => ?_⟩
    · rw [h1] at h; cases h
    · rw [h1] at h; cases h

/-- C6, the code at the failing input. A default `Buffer<2>` holding `7 8` is
assigned three bytes while the 3-byte block cannot be allocated: `Assign` does
not return false (nor does `EnsureSize`), `std::bad_alloc` leaves the call; the
object still has capacity 2, two bytes used and the bytes `7 8`. -/
theorem Assign_allocation_failure_throws :
    (3 > ((ctorDefault 2 (fun _ => 0)).Assign (ptrTo [7, 8]) 2 none).2.GetBuffSize) ∧
    (((ctorDefault 2 (fun _ => 0)).Assign (ptrTo [7, 8]) 2 none).2.Assign
        (ptrTo [1, 2, 3]) 3 none).1 = Except.error ⟨⟩ ∧
    (((ctorDefault 2 (fun _ => 0)).Assign (ptrTo [7, 8]) 2 none).2.Assign
        (ptrTo [1, 2, 3]) 3 none).1 ≠ Except.ok false ∧
    (((ctorDefault 2 (fun _ => 0)).Assign (ptrTo [7, 8]) 2 none).2.EnsureSize
        3 none none).1 ≠ Except.ok false ∧
    (((ctorDefault 2 (fun _ => 0)).Assign (ptrTo [7, 8]) 2 none).2.Assign
        (ptrTo [1, 2, 3]) 3 none).2 =
      ((ctorDefault 2 (fun _ => 0)).Assign (ptrTo [7, 8]) 2 none).2 :=
  ⟨by decide, rfl,
   (Assign_outcome ((ctorDefault 2 (fun _ => 0)).Assign (ptrTo [7, 8]) 2 none).2
     (ptrTo [1, 2, 3]) 3 none).1,
   (Assign_outcome ((ctorDefault 2 (fun _ => 0)).Assign (ptrTo [7, 8]) 2 none).2
     (ptrTo [1, 2, 3]) 3 none).2.1,
   rfl⟩

/-- C7. `SetBytesUsed(v)` throws `std::logic_error` exactly when `v` exceeds
`GetBuffSize()`, and then leaves the object as it was; otherwise it returns
normally with `GetBytesUsed() = v` and the capacity, the pointer and the bytes
as they were. -/
theorem SetBytesUsed_throws_iff (b : Buffer SIZE) (v : Nat) :
    ((∃ e : logic_error, (b.SetBytesUsed v).1 = Except.error e) ↔ v > b.GetBuffSize) ∧
    (v > b.GetBuffSize → (b.SetBytesUsed v).2 = b) ∧
    (v ≤ b.GetBuffSize →
      (b.SetBytesUsed v).1 = Except.ok () ∧
      (b.SetBytesUsed v).2.GetBytesUsed = v ∧
      (b.SetBytesUsed v).2.GetBuffSize = b.GetBuffSize ∧
      (b.SetBytesUsed v).2.GetCharBuffer = b.GetCharBuffer ∧
      (b.SetBytesUsed v).2.m_Buffer = b.m_Buffer ∧
      (b.SetBytesUsed v).2.m_pBuff = b.m_pBuff) := by
  simp only [GetBuffSize]
  by_cases h : v ≤ b.m_BuffSize
  · refine ⟨⟨fun ⟨e, he⟩ => ?_, fun h2 => by omega⟩, fun h2 => by omega, fun _ => ?_⟩
    · simp [SetBytesUsed, h] at he
    · simp [SetBytesUsed, h, GetBytesUsed, GetCharBuffer]
  · refine ⟨⟨fun _ => by omega, fun _ => ⟨⟨"BytesUsed value is too large"⟩, ?_⟩⟩,
      fun _ => ?_, fun h2 => absurd h2 h⟩
    · simp [SetBytesUsed, h]
    · simp [SetBytesUsed, h]

/-- Witness for C7, throwing case: `SetBytesUsed(3)` on a default `Buffer<2>`
holding `7 8` leaves the object as it was. -/
theorem SetBytesUsed_throws_iff_witness :
    (3 > ((ctorDefault 2 (fun _ => 0)).Assign (ptrTo [7, 8]) 2 none).2.GetBuffSize) ∧
    (((ctorDefault 2 (fun _ => 0)).Assign (ptrTo [7, 8]) 2 none).2.SetBytesUsed 3).2 =
      ((ctorDefault 2 (fun _ => 0)).Assign (ptrTo [7, 8]) 2 none).2 :=
  ⟨by decide,
   (SetBytesUsed_throws_iff ((ctorDefault 2 (fun _ => 0)).Assign (ptrTo [7, 8]) 2 none).2 3).2.1
     (by decide)⟩

/-- C4, counterexample. A default `Buffer<32>` is assigned the empty byte
string: `Assign` returns true, yet `Compare` of the same empty byte string
returns `1`, `operator==` is false and `operator!=` is true. -/
theorem Assign_Compare_empty_counterexample :
    ((ctorDefault 32 (fun _ => 0)).AssignSlice ⟨ptrTo [], 0⟩ none).1 = Except.ok true ∧
    ((ctorDefault 32 (fun _ => 0)).AssignSlice ⟨ptrTo [], 0⟩ none).2.CompareSlice
      ⟨ptrTo [], 0⟩ = 1 ∧
    ((ctorDefault 32 (fun _ => 0)).AssignSlice ⟨ptrTo [], 0⟩ none).2.CompareSlice
      ⟨ptrTo [], 0⟩ ≠ 0 ∧
    ((ctorDefault 32 (fun _ => 0)).AssignSlice ⟨ptrTo [], 0⟩ none).2.operator_eq
      ⟨ptrTo [], 0⟩ = false ∧
    ((ctorDefault 32 (fun _ => 0)).AssignSlice ⟨ptrTo [], 0⟩ none).2.operator_ne
      ⟨ptrTo [], 0⟩ = true :=
  ⟨rfl, by decide, by decide, by decide, by decide⟩

/-- C4, amended. Assign then compare round trip: after `Assign(d)` returns true,
the comparison restricted to the used bytes, `Compare(d, n, true)`, returns 0
for every `d`; and when `d` is not empty, `Compare(d)` returns 0,
`operator==(d)` is true and `operator!=(d)` is false. -/
theorem Assign_Compare_roundtrip (b : Buffer SIZE) (d : Slice) (alloc : Option Mem)
    (hok : (b.AssignSlice d alloc).1 = Except.ok true) :
    (b.AssignSlice d alloc).2.Compare d.data_ d.size_ true = 0 ∧
    (0 < d.size_ →
      (b.AssignSlice d alloc).2.CompareSlice d = 0 ∧
      (b.AssignSlice d alloc).2.operator_eq d = true ∧
      (b.AssignSlice d alloc).2.operator_ne d = false) := by
  have hspec := Assign_true_spec b d.data_ d.size_ alloc hok
  have hused : (b.AssignSlice d alloc).2.m_BytesUsed = d.size_ := hspec.1
  have h3 : (b.AssignSlice d alloc).2.Compare d.data_ d.size_ true = 0 := by
    rw [(Compare_spec (b.AssignSlice d alloc).2 d.data_ d.size_ true).2.2]
    simp only [if_true, GetBytesUsed, hused]
    exact hspec.2.2
  refine ⟨h3, fun hpos => ?_⟩
  have h2 : (b.AssignSlice d alloc).2.CompareSlice d = 0 := by
    have hdec : decide ((b.AssignSlice d alloc).2.m_BytesUsed > 0) = true := by
      rw [hused]; exact decide_eq_true hpos
    simp only [CompareSlice, Compare2, hdec]
    exact h3
  exact ⟨h2, by simp [operator_eq, h2], by simp [operator_ne, h2]⟩

/-- Witness for C4 (amended): a default `Buffer<2>` is assigned the three bytes
`1 2 3`, the allocation of the larger block succeeding. -/
theorem Assign_Compare_roundtrip_witness :
    ((ctorDefault 2 (fun _ => 0)).AssignSlice ⟨ptrTo [1, 2, 3], 3⟩ (some (fun _ => 9))).1 =
      Except.ok true ∧
    ((ctorDefault 2 (fun _ => 0)).AssignSlice ⟨ptrTo [1, 2, 3], 3⟩
      (some (fun _ => 9))).2.CompareSlice ⟨ptrTo [1, 2, 3], 3⟩ = 0 :=
  ⟨rfl,
   ((Assign_Compare_roundtrip (ctorDefault 2 (fun _ => 0)) ⟨ptrTo [1, 2, 3], 3⟩
     (some (fun _ => 9)) rfl).2 (by decide)).1⟩

/-! ### Further facts used by the claims below -/

/-- What `EnsureSize` does to `m_BytesUsed`: nothing when the buffer is large
enough, and on growth the call to `ResetBuffer` sets it to `0`. -/
theorem EnsureSize_BytesUsed (b : Buffer SIZE) (n : Nat) (pRealloc : Option Bool)
    (alloc : Option Mem) (hok : (b.EnsureSize n pRealloc alloc).1 = Except.ok true) :
    (b.EnsureSize n pRealloc alloc).2.1.GetBytesUsed =
      if n > b.GetBuffSize then 0 else b.GetBytesUsed := by
  simp only [GetBuffSize, GetBytesUsed]
  rcases EnsureSize_cases b n pRealloc alloc with ⟨hle, he⟩ | ⟨_, _, he⟩ | ⟨hlt, blk, _, he⟩
  · have h : ¬ n > b.m_BuffSize := by omega
    simp [he, h]
  · simp [he] at hok
  · simp [he, hlt]

theorem memcmp_congr_left (s1 t1 s2 : Mem) (m : Nat) (h : ∀ i, i < m → s1 i = t1 i) :
    memcmp s1 s2 m = memcmp t1 s2 m := by
  induction m generalizing s1 t1 s2 with
  | zero => rfl
  | succ m ih =>
    have h0 : s1 0 = t1 0 := h 0 (by omega)
    have hn : memcmp s1.next s2.next m = memcmp t1.next s2.next m :=
      ih _ _ _ (fun i hi => h (i + 1) (by omega))
    simp only [memcmp, h0, hn]

theorem Compare_values (b : Buffer SIZE) (pData : Mem) (n : Nat) (flag : Bool) :
    b.Compare pData n flag = -1 ∨ b.Compare pData n flag = 0 ∨ b.Compare pData n flag = 1 := by
  unfold Compare
  simp only
  split_ifs <;> first | simp | (right; left; omega)

/-- The used-bytes comparison only reads `m_BytesUsed` and the bytes below it. -/
theorem Compare_used_congr {S1 S2 : Nat} (b1 : Buffer S1) (b2 : Buffer S2)
    (hused : b1.m_BytesUsed = b2.m_BytesUsed)
    (hbytes : ∀ i, i < b1.m_BytesUsed → b1.GetCharBuffer i = b2.GetCharBuffer i)
    (pData : Mem) (n : Nat) :
    b1.Compare pData n true = b2.Compare pData n true := by
  have hm : memcmp b1.GetCharBuffer pData (if n < b2.m_BytesUsed then n else b2.m_BytesUsed) =
      memcmp b2.GetCharBuffer pData (if n < b2.m_BytesUsed then n else b2.m_BytesUsed) := by
    apply memcmp_congr_left
    intro i hi
    apply hbytes
    rw [hused]
    split_ifs at hi <;> omega
  simp only [Compare, if_true, hused, hm]

/-- The object after `operator=` from another object, when `EnsureSize`
succeeded. -/
theorem operator_assign_other_spec (A B : Buffer SIZE) (alloc : Option Mem)
    (hok : (A.EnsureSize B.m_BuffSize none alloc).1 = Except.ok true) :
    (A.operator_assign (.other B) alloc).2.m_BytesUsed = B.m_BytesUsed ∧
    (∀ i, i < B.m_BuffSize →
      (A.operator_assign (.other B) alloc).2.GetCharBuffer i = B.GetCharBuffer i) ∧
    (A.operator_assign (.other B) alloc).2.m_BuffSize = max A.m_BuffSize B.m_BuffSize := by
  rcases EnsureSize_cases A B.m_BuffSize none alloc with
    ⟨hle, he⟩ | ⟨_, _, he⟩ | ⟨hlt, blk, _, he⟩
  · refine ⟨by simp [operator_assign, he], fun i hi => ?_, ?_⟩
    · simp only [operator_assign, he, Option.map_none', GetCharBuffer, writeBuff]
      cases hp : A.m_pBuff <;> simp [hp, memcpy, hi]
    · simp [operator_assign, he, m_BuffSize_writeBuff, Nat.max_eq_left hle]
  · simp [he] at hok
  · refine ⟨by simp [operator_assign, he], fun i hi => ?_, ?_⟩
    · simp [operator_assign, he, GetCharBuffer, writeBuff, memcpy, hi]
    · simp [operator_assign, he, writeBuff, Nat.max_eq_right (Nat.le_of_lt hlt)]

/-- C11, the code at the failing input. A default `Buffer<2>` holding the two
bytes `7 8` (`GetBytesUsed()` is 2) is grown with `EnsureSize(5)`: the call
returns true and keeps the two bytes, but `GetBytesUsed()` is 0 afterwards. -/
theorem EnsureSize_growth_resets_BytesUsed :
    ((ctorDefault 2 (fun _ => 0)).Assign (ptrTo [7, 8]) 2 none).2.GetBytesUsed = 2 ∧
    (((ctorDefault 2 (fun _ => 0)).Assign (ptrTo [7, 8]) 2 none).2.EnsureSize 5 none
      (some (fun _ => 0))).1 = Except.ok true ∧
    (((ctorDefault 2 (fun _ => 0)).Assign (ptrTo [7, 8]) 2 none).2.EnsureSize 5 none
      (some (fun _ => 0))).2.1.GetBytesUsed = 0 ∧
    readBytes (((ctorDefault 2 (fun _ => 0)).Assign (ptrTo [7, 8]) 2 none).2.EnsureSize 5 none
      (some (fun _ => 0))).2.1.GetCharBuffer 2 = [7, 8] :=
  ⟨by decide, rfl, by decide, by decide⟩

/-- C13. Buffer state invariant: every state reachable from a constructor by
`Assign`, `EnsureSize`, `SetBytesUsed`, `ResetBuffer` and `operator=`, with all
allocations succeeding, has `GetBytesUsed() <= GetBuffSize()` and
`GetBuffSize() >= SIZE`. -/
theorem Reachable_invariant (b : Buffer SIZE) (h : Reachable b) :
    b.GetBytesUsed ≤ b.GetBuffSize ∧ SIZE ≤ b.GetBuffSize := by
  simp only [GetBytesUsed, GetBuffSize]
  induction h with
  | ctor builtin0 BuffSize blk b hb =>
    by_cases hgt : BuffSize > SIZE
    · simp [Buffer.ctor, hgt] at hb
      subst hb
      simp; omega
    · simp [Buffer.ctor, hgt] at hb
      subst hb
      simp
  | copyCtor builtin0 That blk b _ hb ih =>
    by_cases hgt : That.m_BuffSize > SIZE
    · simp [Buffer.copyCtor, hgt, writeBuff] at hb
      subst hb
      simp; omega
    · have hle : That.m_BuffSize ≤ SIZE := by omega
      simp [Buffer.copyCtor, hgt, hle, writeBuff] at hb
      subst hb
      simp; omega
  | Assign b pData n blk _ ih =>
    rcases EnsureSize_cases b n none (some blk) with
      ⟨hle, he⟩ | ⟨_, hn, _⟩ | ⟨hlt, blk2, _, he⟩
    · simp [Buffer.Assign, he, m_BuffSize_writeBuff]; omega
    · cases hn
    · simp [Buffer.Assign, he, writeBuff]; omega
  | EnsureSize b n pRealloc blk _ ih =>
    rcases EnsureSize_cases b n pRealloc (some blk) with
      ⟨hle, he⟩ | ⟨_, hn, _⟩ | ⟨hlt, blk2, _, he⟩
    · simp [he]; omega
    · cases hn
    · simp [he]; omega
  | SetBytesUsed b v _ ih =>
    by_cases hv : v ≤ b.m_BuffSize
    · simp [Buffer.SetBytesUsed, hv]; omega
    · simp [Buffer.SetBytesUsed, hv]; omega
  | ResetBuffer b _ ih => simp [Buffer.ResetBuffer]
  | assignSelf b blk _ ih => simpa [operator_assign] using ih
  | assignOther b That blk _ _ ihb ihT =>
    rcases EnsureSize_cases b That.m_BuffSize none (some blk) with
      ⟨hle, he⟩ | ⟨_, hn, _⟩ | ⟨hlt, blk2, _, he⟩
    · simp [operator_assign, he, m_BuffSize_writeBuff]; omega
    · cases hn
    · simp [operator_assign, he, writeBuff]; omega

/-- Witness for C13: a `Buffer<2>` constructed with its default size, assigned
three bytes, then told that four bytes are used (which throws). -/
theorem Reachable_invariant_witness :
    Reachable ((((ctorDefault 2 (fun _ => 0)).Assign (ptrTo [1, 2, 3]) 3
      (some (fun _ => 0))).2.SetBytesUsed 4).2) ∧
    ((((ctorDefault 2 (fun _ => 0)).Assign (ptrTo [1, 2, 3]) 3
      (some (fun _ => 0))).2.SetBytesUsed 4).2).GetBytesUsed ≤
    ((((ctorDefault 2 (fun _ => 0)).Assign (ptrTo [1, 2, 3]) 3
      (some (fun _ => 0))).2.SetBytesUsed 4).2).GetBuffSize ∧
    2 ≤ ((((ctorDefault 2 (fun _ => 0)).Assign (ptrTo [1, 2, 3]) 3
      (some (fun _ => 0))).2.SetBytesUsed 4).2).GetBuffSize :=
  ⟨Reachable.SetBytesUsed _ 4
     (Reachable.Assign _ _ 3 _ (Reachable.ctor (fun _ => 0) 2 (fun _ => 0) _ rfl)),
   Reachable_invariant _
     (Reachable.SetBytesUsed _ 4
       (Reachable.Assign _ _ 3 _ (Reachable.ctor (fun _ => 0) 2 (fun _ => 0) _ rfl)))⟩

/-- C14. Used-portion comparison ignores stale bytes and capacity: two buffers
(of any built-in sizes and capacities) with the same `GetBytesUsed()` and the
same first `GetBytesUsed()` bytes give the same `Compare(d, n, true)` for every
`d`; and when `GetBytesUsed() > 0` they also give the same `Compare(d, n)`,
`operator==` and `operator!=`. -/
theorem Compare_ignores_stale_bytes {S1 S2 : Nat} (b1 : Buffer S1) (b2 : Buffer S2)
    (hused : b1.GetBytesUsed = b2.GetBytesUsed)
    (hbytes : readBytes b1.GetCharBuffer b1.GetBytesUsed =
      readBytes b2.GetCharBuffer b2.GetBytesUsed) :
    (∀ (pData : Mem) (n : Nat), b1.Compare pData n true = b2.Compare pData n true) ∧
    (b1.GetBytesUsed > 0 →
      (∀ (pData : Mem) (n : Nat), b1.Compare2 pData n = b2.Compare2 pData n) ∧
      (∀ d : Slice, b1.CompareSlice d = b2.CompareSlice d ∧
        b1.operator_eq d = b2.operator_eq d ∧ b1.operator_ne d = b2.operator_ne d)) := by
  simp only [GetBytesUsed] at hused hbytes ⊢
  have hb : ∀ i, i < b1.m_BytesUsed → b1.GetCharBuffer i = b2.GetCharBuffer i := by
    rw [← hused] at hbytes
    exact (readBytes_eq_iff _ _ _).1 hbytes
  have h3 : ∀ (pData : Mem) (n : Nat), b1.Compare pData n true = b2.Compare pData n true :=
    fun pData n => Compare_used_congr b1 b2 hused hb pData n
  refine ⟨h3, fun hpos => ?_⟩
  have hd1 : decide (b1.m_BytesUsed > 0) = true := decide_eq_true hpos
  have hd2 : decide (b2.m_BytesUsed > 0) = true := by rw [← hused]; exact hd1
  have h2 : ∀ (pData : Mem) (n : Nat), b1.Compare2 pData n = b2.Compare2 pData n := by
    intro pData n
    simp only [Compare2, hd1, hd2]
    exact h3 pData n
  refine ⟨h2, fun d => ?_⟩
  have hs : b1.CompareSlice d = b2.CompareSlice d := h2 d.data_ d.size_
  exact ⟨hs, by simp only [operator_eq, hs], by simp only [operator_ne, hs]⟩

/-- Witness for C14: a `Buffer<4>` that held `1 2 3` before it was assigned the
single byte `9`, against a `Buffer<2>` that was only ever assigned `9`. -/
theorem Compare_ignores_stale_bytes_witness :
    (((ctorDefault 4 (fun _ => 0)).Assign (ptrTo [1, 2, 3]) 3 none).2.Assign
        (ptrTo [9]) 1 none).2.GetBytesUsed =
      ((ctorDefault 2 (fun _ => 5)).Assign (ptrTo [9]) 1 none).2.GetBytesUsed ∧
    0 < (((ctorDefault 4 (fun _ => 0)).Assign (ptrTo [1, 2, 3]) 3 none).2.Assign
        (ptrTo [9]) 1 none).2.GetBytesUsed ∧
    (∀ (pData : Mem) (n : Nat),
      (((ctorDefault 4 (fun _ => 0)).Assign (ptrTo [1, 2, 3]) 3 none).2.Assign
        (ptrTo [9]) 1 none).2.Compare pData n true =
      ((ctorDefault 2 (fun _ => 5)).Assign (ptrTo [9]) 1 none).2.Compare pData n true) ∧
    (∀ (pData : Mem) (n : Nat),
      (((ctorDefault 4 (fun _ => 0)).Assign (ptrTo [1, 2, 3]) 3 none).2.Assign
        (ptrTo [9]) 1 none).2.Compare2 pData n =
      ((ctorDefault 2 (fun _ => 5)).Assign (ptrTo [9]) 1 none).2.Compare2 pData n) :=
  ⟨by decide, by decide,
   (Compare_ignores_stale_bytes
     (((ctorDefault 4 (fun _ => 0)).Assign (ptrTo [1, 2, 3]) 3 none).2.Assign
        (ptrTo [9]) 1 none).2
     ((ctorDefault 2 (fun _ => 5)).Assign (ptrTo [9]) 1 none).2 (by decide) (by decide)).1,
   ((Compare_ignores_stale_bytes
     (((ctorDefault 4 (fun _ => 0)).Assign (ptrTo [1, 2, 3]) 3 none).2.Assign
        (ptrTo [9]) 1 none).2
     ((ctorDefault 2 (fun _ => 5)).Assign (ptrTo [9]) 1 none).2 (by decide) (by decide)).2
     (by decide)).1⟩

/-- C15. `Compare` is antisymmetric: for two buffers `A` and `B` (of any
built-in sizes), comparing `A` with the used bytes of `B` gives the negation
of comparing `B` with the used bytes of `A`; in particular one result is `0`
exactly when the other is. -/
theorem Compare_antisymmetric {S1 S2 : Nat} (A : Buffer S1) (B : Buffer S2) :
    A.Compare B.GetCharBuffer B.GetBytesUsed true =
      -(B.Compare A.GetCharBuffer A.GetBytesUsed true) ∧
    (A.Compare B.GetCharBuffer B.GetBytesUsed true = 0 ↔
      B.Compare A.GetCharBuffer A.GetBytesUsed true = 0) := by
  have hA := Compare_spec A B.GetCharBuffer B.GetBytesUsed true
  have hB := Compare_spec B A.GetCharBuffer A.GetBytesUsed true
  simp only [if_true] at hA hB
  have key : A.Compare B.GetCharBuffer B.GetBytesUsed true =
      -(B.Compare A.GetCharBuffer A.GetBytesUsed true) := by
    rcases Compare_values A B.GetCharBuffer B.GetBytesUsed true with h | h | h
    · rw [h, hB.2.1.2 (hA.1.1 h)]
    · rw [h, hB.2.2.2 (hA.2.2.1 h).symm]; rfl
    · rw [h, hB.1.2 (hA.2.1.1 h)]; rfl
  exact ⟨key, by rw [key]; omega⟩

/-- C16. Copy-assignment copies content and length without shrinking: after
`A = B` from another object `B`, with `EnsureSize` succeeding,
`A.GetBytesUsed() = B.GetBytesUsed()`, every byte of `A` below
`B.GetBuffSize()` is the byte of `B`, `A.GetBuffSize()` is the larger of the
old capacity of `A` and the capacity of `B`, and, `B` using no more bytes than
its capacity, `A` compares equal to the used bytes of `B`.  `B` is passed by
reference to const, so it is not written.  Self-assignment leaves `A` as it
was. -/
theorem operator_assign_copies (A B : Buffer SIZE) (alloc : Option Mem)
    (hok : (A.EnsureSize B.GetBuffSize none alloc).1 = Except.ok true) :
    (A.operator_assign (.other B) alloc).2.GetBytesUsed = B.GetBytesUsed ∧
    (∀ i, i < B.GetBuffSize →
      (A.operator_assign (.other B) alloc).2.GetCharBuffer i = B.GetCharBuffer i) ∧
    (A.operator_assign (.other B) alloc).2.GetBuffSize = max A.GetBuffSize B.GetBuffSize ∧
    (B.GetBytesUsed ≤ B.GetBuffSize →
      (A.operator_assign (.other B) alloc).2.Compare B.GetCharBuffer B.GetBytesUsed true = 0) ∧
    A.operator_assign .self alloc = (Except.ok (), A) := by
  simp only [GetBuffSize, GetBytesUsed] at hok ⊢
  obtain ⟨h1, h2, h3⟩ := operator_assign_other_spec A B alloc hok
  refine ⟨h1, h2, h3, fun hinv => ?_, rfl⟩
  rw [(Compare_spec (A.operator_assign (.other B) alloc).2 B.GetCharBuffer B.m_BytesUsed true).2.2]
  simp only [if_true, GetBytesUsed, h1]
  exact (readBytes_eq_iff _ _ _).2 (fun i hi => h2 i (by omega))

/-- Witness for C16: a default `Buffer<2>` holding `9` is assigned from a
`Buffer<2>` that grew to hold `1 2 3`. -/
theorem operator_assign_copies_witness :
    (((ctorDefault 2 (fun _ => 0)).Assign (ptrTo [9]) 1 none).2.EnsureSize
      ((ctorDefault 2 (fun _ => 0)).Assign (ptrTo [1, 2, 3]) 3 (some (fun _ => 0))).2.GetBuffSize
      none (some (fun _ => 7))).1 = Except.ok true ∧
    (((ctorDefault 2 (fun _ => 0)).Assign (ptrTo [9]) 1 none).2.operator_assign
      (.other ((ctorDefault 2 (fun _ => 0)).Assign (ptrTo [1, 2, 3]) 3 (some (fun _ => 0))).2)
      (some (fun _ => 7))).2.GetBytesUsed =
      ((ctorDefault 2 (fun _ => 0)).Assign (ptrTo [1, 2, 3]) 3
        (some (fun _ => 0))).2.GetBytesUsed ∧
    (((ctorDefault 2 (fun _ => 0)).Assign (ptrTo [9]) 1 none).2.operator_assign
      (.other ((ctorDefault 2 (fun _ => 0)).Assign (ptrTo [1, 2, 3]) 3 (some (fun _ => 0))).2)
      (some (fun _ => 7))).2.Compare
        ((ctorDefault 2 (fun _ => 0)).Assign (ptrTo [1, 2, 3]) 3
          (some (fun _ => 0))).2.GetCharBuffer
        ((ctorDefault 2 (fun _ => 0)).Assign (ptrTo [1, 2, 3]) 3
          (some (fun _ => 0))).2.GetBytesUsed true = 0 :=
  ⟨rfl,
   (operator_assign_copies ((ctorDefault 2 (fun _ => 0)).Assign (ptrTo [9]) 1 none).2
     ((ctorDefault 2 (fun _ => 0)).Assign (ptrTo [1, 2, 3]) 3 (some (fun _ => 0))).2
     (some (fun _ => 7)) rfl).1,
   (operator_assign_copies ((ctorDefault 2 (fun _ => 0)).Assign (ptrTo [9]) 1 none).2
     ((ctorDefault 2 (fun _ => 0)).Assign (ptrTo [1, 2, 3]) 3 (some (fun _ => 0))).2
     (some (fun _ => 7)) rfl).2.2.2.1 (by decide)⟩

end Buffer

end utils

/-! ## Claims about `BigsetAccumulator` -/

namespace bigset

namespace BigsetAccumulator

variable {Actor BigsetClock Dots : Type}

/-- C8. Collecting clears the ready flag: `RecordReady()` is false right after
`GetCurrentElement`; the call leaves every other member of the accumulator as
it was (ready key and value buffers, current set name, element, context, dots,
actor); and a second `GetCurrentElement` directly after the first changes
neither the accumulator nor the two slices. -/
theorem GetCurrentElement_clears_ready (a : BigsetAccumulator Actor BigsetClock Dots)
    (key value : Slice) :
    (a.GetCurrentElement key value).1.RecordReady = false ∧
    (a.RecordReady = true →
      (a.GetCurrentElement key value).1 = { a with m_RecordReady := false }) ∧
    ((a.GetCurrentElement key value).1.m_ReadyKey = a.m_ReadyKey ∧
     (a.GetCurrentElement key value).1.m_ReadyValue = a.m_ReadyValue ∧
     (a.GetCurrentElement key value).1.m_CurrentSetName = a.m_CurrentSetName ∧
     (a.GetCurrentElement key value).1.m_CurrentElement = a.m_CurrentElement ∧
     (a.GetCurrentElement key value).1.m_CurrentContext = a.m_CurrentContext ∧
     (a.GetCurrentElement key value).1.m_CurrentDots = a.m_CurrentDots ∧
     (a.GetCurrentElement key value).1.m_ThisActor = a.m_ThisActor) ∧
    (a.GetCurrentElement key value).1.GetCurrentElement
        (a.GetCurrentElement key value).2.1 (a.GetCurrentElement key value).2.2 =
      a.GetCurrentElement key value := by
  cases h : a.m_RecordReady <;> simp [GetCurrentElement, RecordReady, h]

/-- C9. Collecting when nothing is ready has no observable effect: when
`RecordReady()` is false, `GetCurrentElement(key, value)` leaves the
accumulator and both caller slices exactly as they were, and `RecordReady()`
is still false. -/
theorem GetCurrentElement_not_ready (a : BigsetAccumulator Actor BigsetClock Dots)
    (key value : Slice) (h : a.RecordReady = false) :
    a.GetCurrentElement key value = (a, key, value) ∧
    (a.GetCurrentElement key value).1.RecordReady = false := by
  simp only [RecordReady] at h
  simp [GetCurrentElement, RecordReady, h]

/-- Witness for C9: a newly constructed accumulator. -/
theorem GetCurrentElement_not_ready_witness :
    (ctor () () () (fun _ => 0) (fun _ => 0) (fun _ => 0) (fun _ => 0) :
      BigsetAccumulator Unit Unit Unit).RecordReady = false ∧
    (ctor () () () (fun _ => 0) (fun _ => 0) (fun _ => 0) (fun _ => 0) :
      BigsetAccumulator Unit Unit Unit).GetCurrentElement ⟨ptrTo [1], 1⟩ ⟨ptrTo [2, 3], 2⟩ =
      (ctor () () () (fun _ => 0) (fun _ => 0) (fun _ => 0) (fun _ => 0),
        ⟨ptrTo [1], 1⟩, ⟨ptrTo [2, 3], 2⟩) :=
  ⟨rfl,
   (GetCurrentElement_not_ready
     (ctor () () () (fun _ => 0) (fun _ => 0) (fun _ => 0) (fun _ => 0))
     ⟨ptrTo [1], 1⟩ ⟨ptrTo [2, 3], 2⟩ rfl).1⟩

/-- What `GetCurrentElement` hands out when a record is ready: both views start
at the staging buffer and extend over `GetBuffSize()` bytes. -/
theorem GetCurrentElement_ready_views (a : BigsetAccumulator Actor BigsetClock Dots)
    (key value : Slice) (h : a.RecordReady = true) :
    (a.GetCurrentElement key value).2.1 =
      ⟨a.m_ReadyKey.GetCharBuffer, a.m_ReadyKey.GetBuffSize⟩ ∧
    (a.GetCurrentElement key value).2.2 =
      ⟨a.m_ReadyValue.GetCharBuffer, a.m_ReadyValue.GetBuffSize⟩ := by
  simp only [RecordReady] at h
  simp [GetCurrentElement, h]

/-- C10, the code at the failing input. For the accumulator `readyExample`,
whose ready key is the single byte `k` and whose ready value is the single
byte `v`, `GetCurrentElement` returns views of length 32 (the capacity of the
staging buffers) although `GetBytesUsed()` is 1 for both: the key view is `k`
followed by 31 stale bytes of the built-in array. -/
theorem GetCurrentElement_view_length_is_capacity :
    readyExample.RecordReady = true ∧
    readyExample.m_ReadyKey.GetBytesUsed = 1 ∧
    readyExample.m_ReadyValue.GetBytesUsed = 1 ∧
    (readyExample.GetCurrentElement ⟨ptrTo [], 0⟩ ⟨ptrTo [], 0⟩).2.1.size_ = 32 ∧
    (readyExample.GetCurrentElement ⟨ptrTo [], 0⟩ ⟨ptrTo [], 0⟩).2.2.size_ = 32 ∧
    readBytes (readyExample.GetCurrentElement ⟨ptrTo [], 0⟩ ⟨ptrTo [], 0⟩).2.1.data_
        (readyExample.GetCurrentElement ⟨ptrTo [], 0⟩ ⟨ptrTo [], 0⟩).2.1.size_ =
      107 :: List.replicate 31 170 ∧
    readBytes readyExample.m_ReadyKey.GetCharBuffer readyExample.m_ReadyKey.GetBytesUsed =
      [107] := by
  decide

end BigsetAccumulator

end bigset

end basho

namespace basho

namespace bigset

section ModelFacts

variable {Actor : Type}

theorem filter_eq_length_zero {K : Type} [DecidableEq K] (l : List K) (k : K) (h : k ∉ l) :
    (l.filter (fun x => decide (x = k))).length = 0 := by
  rw [List.length_eq_zero, List.filter_eq_nil_iff]
  intro x hx hxk
  have hxk2 : x = k := of_decide_eq_true hxk
  exact h (hxk2 ▸ hx)

theorem filter_eq_length_one {K : Type} [DecidableEq K] (l : List K) (k : K) (hnd : l.Nodup)
    (h : k ∈ l) : (l.filter (fun x => decide (x = k))).length = 1 := by
  induction l with
  | nil => cases h
  | cons x l ih =>
    rw [List.nodup_cons] at hnd
    by_cases hx : x = k
    · have hk : k ∉ l := hx ▸ hnd.1
      simp [List.filter_cons, hx, filter_eq_length_zero l k hk]
    · have hmem : k ∈ l := by
        rcases List.mem_cons.1 h with h1 | h1
        · exact absurd h1.symm hx
        · exact h1
      simp [List.filter_cons, hx, ih hnd.2 hmem]

namespace Accumulation

theorem collect_fst (s : Accumulation Actor) : s.collect.1 = s.ready := by
  cases h : s.ready <;> simp [collect, h]

theorem collect_of_ready_none (s : Accumulation Actor) (h : s.ready = none) :
    s.collect = (none, s) := by
  simp [collect, h]

theorem collect_snd_ready (s : Accumulation Actor) : s.collect.2.ready = none := by
  cases h : s.ready <;> simp [collect, h]

theorem collect_snd_current (s : Accumulation Actor) : s.collect.2.current = s.current := by
  cases h : s.ready <;> simp [collect, h]

theorem collect_snd_context (s : Accumulation Actor) : s.collect.2.context = s.context := by
  cases h : s.ready <;> simp [collect, h]

theorem collect_snd_dots (s : Accumulation Actor) : s.collect.2.dots = s.dots := by
  cases h : s.ready <;> simp [collect, h]

theorem poll_eq_collect (s : Accumulation Actor) : s.poll = s.collect := by
  cases h : s.ready <;> simp [poll, collect, RecordReady, h]

theorem ext_fields (s t : Accumulation Actor) (h1 : s.current = t.current)
    (h2 : s.context = t.context) (h3 : s.dots = t.dots) (h4 : s.ready = t.ready) : s = t := by
  cases s; cases t; simp_all

end Accumulation

variable [DecidableEq Actor]

theorem DotSet.mem_add (s : DotSet Actor) (d x : Dot Actor) :
    x ∈ DotSet.add s d ↔ x ∈ s ∨ x = d := by
  unfold DotSet.add
  by_cases h : d ∈ s
  · simp only [h, if_true]
    constructor
    · exact Or.inl
    · rintro (hx | hx)
      · exact hx
      · rw [hx]; exact h
  · simp [h]

namespace Accumulation

theorem fold_current (s : Accumulation Actor) (p : Payload Actor) :
    (s.fold p).current = s.current := by
  rcases p with ⟨_ | c, _ | d⟩ <;> rfl

theorem fold_ready (s : Accumulation Actor) (p : Payload Actor) :
    (s.fold p).ready = s.ready := by
  rcases p with ⟨_ | c, _ | d⟩ <;> rfl

theorem fold_context (s : Accumulation Actor) (p : Payload Actor) :
    (s.fold p).context =
      (match p.1 with
        | some f => s.context.merge f
        | none => s.context) := by
  rcases p with ⟨_ | c, _ | d⟩ <;> rfl

theorem fold_dots (s : Accumulation Actor) (p : Payload Actor) :
    (s.fold p).dots =
      (match p.2 with
        | some d => s.dots.add d
        | none => s.dots) := by
  rcases p with ⟨_ | c, _ | d⟩ <;> rfl

theorem foldl_fold_current (ps : List (Payload Actor)) (s : Accumulation Actor) :
    (ps.foldl fold s).current = s.current := by
  induction ps generalizing s with
  | nil => rfl
  | cons p ps ih => rw [List.foldl_cons, ih, fold_current]

theorem foldl_fold_ready (ps : List (Payload Actor)) (s : Accumulation Actor) :
    (ps.foldl fold s).ready = s.ready := by
  induction ps generalizing s with
  | nil => rfl
  | cons p ps ih => rw [List.foldl_cons, ih, fold_ready]

theorem foldl_fold_context (ps : List (Payload Actor)) (s : Accumulation Actor) :
    (ps.foldl fold s).context =
      ps.foldl
        (fun c p => match p.1 with
          | some f => c.merge f
          | none => c)
        s.context := by
  induction ps generalizing s with
  | nil => rfl
  | cons p ps ih => rw [List.foldl_cons, ih, fold_context, List.foldl_cons]

theorem foldl_fold_dots_mem (ps : List (Payload Actor)) (s : Accumulation Actor)
    (x : Dot Actor) :
    x ∈ (ps.foldl fold s).dots ↔ x ∈ s.dots ∨ x ∈ ps.filterMap (fun p => p.2) := by
  induction ps generalizing s with
  | nil => simp
  | cons p ps ih =>
    rw [List.foldl_cons, ih, fold_dots]
    rcases p with ⟨c, _ | d⟩
    · simp
    · simp only [DotSet.mem_add, List.filterMap_cons, List.mem_cons]
      constructor
      · rintro ((h | h) | h)
        · exact Or.inl h
        · exact Or.inr (Or.inl h)
        · exact Or.inr (Or.inr h)
      · rintro (h | h | h)
        · exact Or.inl (Or.inl h)
        · exact Or.inl (Or.inr h)
        · exact Or.inr h

theorem feed_append (s : Accumulation Actor) (xs ys : List (Record Actor)) :
    feed s (xs ++ ys) =
      ((feed s xs).1 ++ (feed (feed s xs).2 ys).1, (feed (feed s xs).2 ys).2) := by
  induction xs generalizing s with
  | nil => simp [feed]
  | cons x xs ih => simp [feed, ih, List.append_assoc]

theorem scanFrom_append (s : Accumulation Actor) (xs ys : List (Record Actor)) :
    scanFrom s (xs ++ ys) = (feed s xs).1 ++ scanFrom (feed s xs).2 ys := by
  simp [scanFrom, feed_append, List.append_assoc]

/-- Records of the group that is already open are folded, and nothing becomes
ready. -/
theorem feed_same_group (ps : List (Payload Actor)) (s : Accumulation Actor)
    (k : List Byte × List Byte) (hc : s.current = some k) (hr : s.ready = none) :
    feed s (ps.map (fun p => (⟨k.1, k.2, p⟩ : Record Actor))) = ([], ps.foldl fold s) := by
  induction ps generalizing s with
  | nil => rfl
  | cons p ps ih =>
    have hadd : s.AddRecord ⟨k.1, k.2, p⟩ = s.fold p := by
      simp [AddRecord, hc]
    have hcol : (s.fold p).collect = (none, s.fold p) :=
      collect_of_ready_none _ (by rw [fold_ready, hr])
    simp only [List.map_cons, feed, poll_eq_collect, hadd, hcol, List.foldl_cons]
    rw [ih (s.fold p) (by rw [fold_current, hc]) (by rw [fold_ready, hr])]
    rfl

/-- The first record of a new group finalizes the open group, and the whole
group is then folded into a reset context and dot set. -/
theorem feed_new_group (g : Group Actor) (s : Accumulation Actor)
    (hc : s.current ≠ some g.key) :
    feed s g.records = (s.FinalizeElement.ready.toList, g.accumulated) := by
  have hc2 : ¬ s.current = some (g.setName, g.element) := hc
  have hadd : s.AddRecord ⟨g.setName, g.element, g.first⟩ =
      fold { s.FinalizeElement with
              current := some (g.setName, g.element)
              context := CausalContext.empty
              dots := [] } g.first := by
    simp [AddRecord, hc2]
  have hsnd : (s.AddRecord ⟨g.setName, g.element, g.first⟩).collect.2 =
      fold { current := some g.key, context := CausalContext.empty, dots := [], ready := none }
        g.first := by
    apply ext_fields
    · rw [collect_snd_current, hadd, fold_current, fold_current]; rfl
    · rw [collect_snd_context, hadd, fold_context, fold_context]
    · rw [collect_snd_dots, hadd, fold_dots, fold_dots]
    · rw [collect_snd_ready, fold_ready]
  have hfst : (s.AddRecord ⟨g.setName, g.element, g.first⟩).collect.1 =
      s.FinalizeElement.ready := by
    rw [collect_fst, hadd, fold_ready]
  have hrest := feed_same_group g.rest
    (fold { current := some g.key, context := CausalContext.empty, dots := [], ready := none }
      g.first) g.key (by rw [fold_current]) (by rw [fold_ready])
  have hkey : g.key = (g.setName, g.element) := rfl
  simp only [hkey] at hrest hsnd
  simp only [Group.records, List.map_cons, feed, poll_eq_collect, hsnd, hfst, hrest,
    List.append_nil,
    Group.accumulated, List.foldl_cons, hkey]

end Accumulation

namespace Group

theorem accumulated_current (g : Group Actor) : g.accumulated.current = some g.key := by
  unfold accumulated
  rw [Accumulation.foldl_fold_current]

theorem accumulated_ready (g : Group Actor) : g.accumulated.ready = none := by
  unfold accumulated
  rw [Accumulation.foldl_fold_ready]

theorem accumulated_context (g : Group Actor) : g.accumulated.context = g.mergedContext := by
  unfold accumulated
  rw [Accumulation.foldl_fold_context]
  rfl

theorem accumulated_dots_mem (g : Group Actor) (x : Dot Actor) :
    x ∈ g.accumulated.dots ↔ x ∈ g.allDots := by
  unfold accumulated
  rw [Accumulation.foldl_fold_dots_mem]
  simp [allDots]

theorem accumulated_anySurvives (g : Group Actor) :
    g.accumulated.dots.anySurvives g.accumulated.context = g.survives := by
  rw [Bool.eq_iff_iff]
  simp only [DotSet.anySurvives, survives, List.any_eq_true, accumulated_context,
    accumulated_dots_mem]

/-- Finalizing a fully folded group stages a record for it exactly when the
group survives. -/
theorem finalize_accumulated (g : Group Actor) :
    g.accumulated.FinalizeElement.ready.toList.map ReadyRecord.key =
      if g.survives then [g.key] else [] := by
  have hc := accumulated_current g
  have hr := accumulated_ready g
  have ha := accumulated_anySurvives g
  have hkey : g.key = (g.setName, g.element) := rfl
  rw [hkey] at hc
  cases hs : g.survives
  · rw [hs] at ha
    simp [Accumulation.FinalizeElement, hc, ha, hr]
  · rw [hs] at ha
    simp [Accumulation.FinalizeElement, hc, ha, ReadyRecord.key, hkey]

end Group

namespace Accumulation

/-- A scan over a sequence of groups, started in a state whose open group (if
any) is not the first group of the sequence. -/
theorem scanFrom_groups (gs : List (Group Actor)) (s : Accumulation Actor)
    (hc : ∀ g ∈ gs.head?, s.current ≠ some g.key)
    (hch : gs.Chain' (fun g1 g2 => g1.key ≠ g2.key)) :
    (scanFrom s (gs.flatMap Group.records)).map ReadyRecord.key =
      s.FinalizeElement.ready.toList.map ReadyRecord.key ++
        (gs.filter Group.survives).map Group.key := by
  induction gs generalizing s with
  | nil =>
    simp [scanFrom, feed, flush, poll_eq_collect, collect_fst]
  | cons g gs ih =>
    have hcg : s.current ≠ some g.key := hc g (by simp)
    rw [List.chain'_cons'] at hch
    have hih := ih g.accumulated
      (fun g2 hg2 => by
        rw [Group.accumulated_current]
        intro h
        exact hch.1 g2 hg2 (Option.some.inj h))
      hch.2
    rw [List.flatMap_cons, scanFrom_append, feed_new_group g s hcg]
    simp only [List.map_append, hih, Group.finalize_accumulated, List.filter_cons]
    cases hs : g.survives <;> simp

theorem scan_groups (gs : List (Group Actor))
    (hch : gs.Chain' (fun g1 g2 => g1.key ≠ g2.key)) :
    (scan (gs.flatMap Group.records)).map ReadyRecord.key =
      (gs.filter Group.survives).map Group.key := by
  have h := scanFrom_groups gs init (fun g _ => by simp [init]) hch
  simpa [scan, init, FinalizeElement] using h

end Accumulation

end ModelFacts

section ModelFacts2

variable {Actor : Type}

theorem nodup_keys_chain (gs : List (Group Actor)) (hnd : (gs.map Group.key).Nodup) :
    gs.Chain' (fun g1 g2 => g1.key ≠ g2.key) := by
  apply List.Pairwise.chain'
  exact List.pairwise_map.1 hnd

theorem filter_key_length (outs : List (ReadyRecord Actor)) (k : List Byte × List Byte) :
    (outs.filter (fun r => decide (r.key = k))).length =
      ((outs.map ReadyRecord.key).filter (fun x => decide (x = k))).length := by
  rw [List.filter_map, List.length_map]
  rfl

theorem count_surviving_keys (gs : List (Group Actor)) (hnd : (gs.map Group.key).Nodup)
    (g : Group Actor) (hg : g ∈ gs) :
    (((gs.filter Group.survives).map Group.key).filter (fun x => decide (x = g.key))).length =
      if g.survives then 1 else 0 := by
  have hsub : ((gs.filter Group.survives).map Group.key).Nodup :=
    List.Nodup.sublist (List.Sublist.map _ (List.filter_sublist gs)) hnd
  cases hs : g.survives
  · have hnot : g.key ∉ (gs.filter Group.survives).map Group.key := by
      intro hmem
      obtain ⟨g2, hg2, hk⟩ := List.mem_map.1 hmem
      rw [List.mem_filter] at hg2
      have heq : g2 = g := List.inj_on_of_nodup_map hnd hg2.1 hg hk
      rw [heq, hs] at hg2
      exact Bool.noConfusion hg2.2
    simpa using filter_eq_length_zero _ _ hnot
  · have hmem : g.key ∈ (gs.filter Group.survives).map Group.key :=
      List.mem_map.2 ⟨g, List.mem_filter.2 ⟨hg, hs⟩, rfl⟩
    simpa using filter_eq_length_one _ _ hsub hmem

variable [DecidableEq Actor]

/-- C12. Survival correctness of the accumulator (on the accumulation algorithm
as the specification describes it).  A stream in which the records of every
(SetName, Element) pair are contiguous, as in a sorted stream, is fed record by
record, the driver polling `RecordReady()` after every call and after the final
flush.  The records that become ready are, in order, those of the groups with
at least one dot not covered by the context merged from the records of the
group: a group whose dots are all covered yields no ready record, and a group
with an uncovered dot yields exactly one. -/
theorem survival_correctness (gs : List (Group Actor)) (hnd : (gs.map Group.key).Nodup) :
    (Accumulation.scan (gs.flatMap Group.records)).map ReadyRecord.key =
      (gs.filter Group.survives).map Group.key ∧
    (∀ g ∈ gs, g.allDots.all (fun d => g.mergedContext.covers d) = true →
      ((Accumulation.scan (gs.flatMap Group.records)).filter
        (fun r => decide (r.key = g.key))).length = 0) ∧
    (∀ g ∈ gs, (∃ d ∈ g.allDots, g.mergedContext.covers d = false) →
      ((Accumulation.scan (gs.flatMap Group.records)).filter
        (fun r => decide (r.key = g.key))).length = 1) := by
  have hscan := Accumulation.scan_groups gs (nodup_keys_chain gs hnd)
  refine ⟨hscan, fun g hg hall => ?_, fun g hg hex => ?_⟩
  · have hs : g.survives = false := by
      rw [Bool.eq_false_iff]
      intro hsv
      simp only [Group.survives, List.any_eq_true] at hsv
      obtain ⟨d, hd, hcov⟩ := hsv
      rw [List.all_eq_true] at hall
      simp [hall d hd] at hcov
    rw [filter_key_length, hscan, count_surviving_keys gs hnd g hg, hs]
    rfl
  · have hs : g.survives = true := by
      simp only [Group.survives, List.any_eq_true]
      obtain ⟨d, hd, hcov⟩ := hex
      exact ⟨d, hd, by simp [hcov]⟩
    rw [filter_key_length, hscan, count_surviving_keys gs hnd g hg, hs]
    rfl

/-- Witness for C12: scenarios A and B of the specification in one stream. -/
theorem survival_correctness_witness :
    ([scenarioA, scenarioB].map Group.key).Nodup ∧
    (Accumulation.scan ([scenarioA, scenarioB].flatMap Group.records)).map ReadyRecord.key =
      ([scenarioA, scenarioB].filter Group.survives).map Group.key :=
  ⟨by decide, (survival_correctness [scenarioA, scenarioB] (by decide)).1⟩

end ModelFacts2

end bigset

end basho
